import Mathlib

/-!
Shallow embedding of the core of the `trusty-compiler` crate
(preprocess → parse → transpile pipeline of the TRUST language),
together with theorems settling the frozen claims about it.

Each definition mirrors the Rust function of the same (snake_case)
name in `crates/trusty-compiler/src`; the AST types are reduced to the
constructors the claims exercise, and the reductions are noted at each
definition.
-/

set_option maxRecDepth 4096

namespace Trusty

/-! ### Scope (transpiler/scope.rs)

`Scope` is a `HashMap<String, String>` in the source; only `get`,
`insert` (overwrite) and `clone` are ever used, so it is modelled as an
association list whose `insert` prepends and whose `get` returns the
first match. -/

def Scope := List (String × String)

def Scope.empty : Scope := []

def Scope.get (s : Scope) (k : String) : Option String :=
  match s with
  | [] => none
  | (k', v) :: rest => if k' = k then some v else Scope.get rest k

def Scope.insert (s : Scope) (k v : String) : Scope := (k, v) :: s

/-- Rust's `str::starts_with`, modelled as a character-list prefix
test. -/
def str_starts_with (s pre : String) : Bool := pre.data.isPrefixOf s.data

/-- `is_pointer` from transpiler/scope.rs. -/
def is_pointer (type_str : String) : Bool := str_starts_with type_str "Rc<RefCell<"

/-- `is_threaded` from transpiler/scope.rs. -/
def is_threaded (type_str : String) : Bool := str_starts_with type_str "Arc<Mutex<"

/-- Modelled from the spec: `scope.rs` in the repository snapshot does not
contain the `MODULE_ALIAS_MARKER` constant that `functions.rs` and
`expressions.rs` import from it.  The spec describes it as "a
distinguished marker value used to tag module aliases"; it is modelled
as a fixed string distinct from every Rust type string the transpiler
produces. -/
def MODULE_ALIAS_MARKER : String := "__trusty_module_alias__"

/-- Modelled from the spec: the `is_module_alias_binding` helper imported
from `scope.rs` by `expressions.rs`; it recognises the distinguished
module-alias marker. -/
def is_module_alias_binding (type_str : String) : Bool :=
  type_str = MODULE_ALIAS_MARKER

/-! ### Type lowering (transpiler/types.rs) -/

/-- The `TsKeywordTypeKind`s distinguished by `transpile_type`; every
other keyword kind falls to the wildcard arm. -/
inductive TsKeywordKind where
  | number
  | string
  | boolean
  | otherKeyword
  deriving DecidableEq, Repr

/-- Reduced `TsType`: keyword types, identifier type references with
type arguments, array types; qualified (`A.B`) reference names and the
remaining `TsType` variants are collapsed into `qualifiedRef` and
`otherType`, which mirror the corresponding fallback arms of
`transpile_type`. -/
inductive TsType where
  | keyword (k : TsKeywordKind)
  | typeRef (name : String) (params : List TsType)
  | qualifiedRef
  | array (elem : TsType)
  | otherType
  deriving Repr

mutual

/-- `transpile_type` from transpiler/types.rs. -/
def transpile_type : TsType → String
  | .keyword k =>
    match k with
    | .number => "i32"
    | .string => "String"
    | .boolean => "bool"
    | .otherKeyword => "()"
  | .typeRef name params =>
    let type_args := transpile_type_list params
    match name with
    | "number8" => "i8"
    | "number16" => "i16"
    | "number32" => "i32"
    | "number64" => "i64"
    | "float32" => "f32"
    | "float64" => "f64"
    | "number" => "i32"
    | "Pointer" =>
      let inner := (type_args.head?).getD "()"
      "Rc<RefCell<" ++ inner ++ ">>"
    | "Threaded" =>
      let inner := (type_args.head?).getD "()"
      "Arc<Mutex<" ++ inner ++ ">>"
    | "Map" => "HashMap<" ++ String.intercalate ", " type_args ++ ">"
    | "Set" =>
      let inner := (type_args.head?).getD "()"
      "HashSet<" ++ inner ++ ">"
    | other =>
      if type_args.isEmpty then other
      else other ++ "<" ++ String.intercalate ", " type_args ++ ">"
  | .qualifiedRef => "i32"
  | .array elem => "Vec<" ++ transpile_type elem ++ ">"
  | .otherType => "()"

def transpile_type_list : List TsType → List String
  | [] => []
  | t :: ts => transpile_type t :: transpile_type_list ts

end

/-- `transpile_type_annotation` from transpiler/types.rs (a type
annotation simply wraps its type). -/
def transpile_type_annotation (ann : TsType) : String := transpile_type ann

/-! ### Expressions (transpiler/expressions.rs)

The `swc` expression AST is reduced to the constructors the claims
exercise.  Omitted constructors (template literals, arrow functions,
object literals, `new` expressions, unary/update expressions,
member-callee calls, and the remaining `swc` variants) all fall to
wildcard arms in the source; `otherExpr` mirrors the
`_ => Ok("unknown_expr")` arm.  Call expressions are restricted to
identifier callees (`Callee::Expr(Expr::Ident)`); in particular the
struct-constructor branch of `transpile_call_expression`, which fires
only when the sole argument is an object literal, is vacuous on this
reduced AST and is therefore not carried over. -/

/-- The binary operators `transpile_expression` distinguishes.
`===`/`!==` lower identically to `==`/`!=` in the source and are merged
here; `otherOp` mirrors the `_ => Ok("?")` arm. -/
inductive BinOp where
  | add | sub | mul | div | modOp
  | lt | ltEq | gt | gtEq
  | eqEq | notEq
  | logAnd | logOr
  | exp
  | otherOp
  deriving DecidableEq, Repr

mutual

inductive Expr where
  | bin (op : BinOp) (l r : Expr)
  | ident (name : String)
  | thisE
  | numLit (v : Rat)
  | strLit (s : String)
  | boolLit (b : Bool)
  | callIdent (callee : String) (args : ExprList)
  | arrayLit (elems : ExprList)
  | cond (t c a : Expr)
  | member (obj : Expr) (prop : MProp)
  | assignE (target : AssignTarget) (value : Expr)
  | awaitE (e : Expr)
  | paren (e : Expr)
  | otherExpr

/-- `MemberProp`: an identifier property or a computed (`[i]`) one. -/
inductive MProp where
  | propIdent (s : String)
  | computed (e : Expr)

/-- `AssignTarget`, reduced to the two simple targets the source
handles (`SimpleAssignTarget::Member` and `SimpleAssignTarget::Ident`);
member targets with computed properties render the property as the
literal `unknown`, mirroring the source. -/
inductive AssignTarget where
  | simpleIdent (name : String)
  | simpleMember (obj : Expr) (prop : MProp)

/-- Argument/element lists, as a member of the mutual family so the
lowering functions stay structurally recursive. -/
inductive ExprList where
  | nil
  | cons (e : Expr) (tl : ExprList)

end

/-- `ident_name` from transpiler/expressions.rs. -/
def ident_name : Expr → Option String
  | .ident name => some name
  | _ => none

/-- Rendering of an `swc` numeric literal value (`num.value.to_string()`
on an `f64`).  Integral values print without a fractional part; the
decimal rendering of non-integral values is not modelled exactly (no
claim depends on it). -/
def num_value_to_string (v : Rat) : String :=
  if v.den = 1 then toString v.num else toString v

/-- `is_numeric_rust_type` from transpiler/expressions.rs. -/
def is_numeric_rust_type (ty : String) : Bool :=
  ty = "i8" ∨ ty = "i16" ∨ ty = "i32" ∨ ty = "i64" ∨
  ty = "u8" ∨ ty = "u16" ∨ ty = "u32" ∨ ty = "u64" ∨
  ty = "isize" ∨ ty = "usize" ∨ ty = "f32" ∨ ty = "f64"

/-- `is_boolean_like_expr` from transpiler/expressions.rs.  The unary
`!` arm and the member-callee arm concern constructors outside the
reduced AST. -/
def is_boolean_like_expr : Expr → Bool
  | .boolLit _ => true
  | .bin op _ _ =>
    (op matches .eqEq | .notEq | .lt | .ltEq | .gt | .gtEq | .logAnd | .logOr)
  | .paren e => is_boolean_like_expr e
  | .callIdent callee _ => callee = "boolean"
  | _ => false

/-- `infer_rust_type` from transpiler/expressions.rs.  A numeric
literal is integer-typed when `n.value.fract() == 0.0`, i.e. when the
rational value has denominator 1. -/
def infer_rust_type : Expr → Scope → Option String
  | .ident name, scope => scope.get name
  | .numLit v, _ => if v.den = 1 then some "i32" else some "f64"
  | .paren e, scope => infer_rust_type e scope
  | .callIdent callee _, _ =>
    match callee with
    | "int8" => some "i8"
    | "int16" => some "i16"
    | "int32" => some "i32"
    | "int" => some "i32"
    | "number" => some "i32"
    | "number32" => some "i32"
    | "int64" => some "i64"
    | "number64" => some "i64"
    | "float32" => some "f32"
    | "float64" => some "f64"
    | "float" => some "f64"
    | _ => none
  | _, _ => none

/-- `transpile_exponentiation` from transpiler/expressions.rs; `left`
and `right` are the already-rendered operands. -/
def transpile_exponentiation (left_expr : Expr) (left right : String)
    (scope : Scope) : String :=
  let left_ty := infer_rust_type left_expr scope
  match left_ty with
  | some ty =>
    if ty = "f32" then "(" ++ left ++ " as f32).powf(" ++ right ++ " as f32)"
    else if ty = "f64" then "(" ++ left ++ " as f64).powf(" ++ right ++ " as f64)"
    else if ty = "i8" then "(" ++ left ++ " as i8).pow((" ++ right ++ ").max(0) as u32)"
    else if ty = "i16" then "(" ++ left ++ " as i16).pow((" ++ right ++ ").max(0) as u32)"
    else if ty = "i32" then "(" ++ left ++ " as i32).pow((" ++ right ++ ").max(0) as u32)"
    else if ty = "i64" then "(" ++ left ++ " as i64).pow((" ++ right ++ ").max(0) as u32)"
    else if ty = "u8" then "(" ++ left ++ " as u8).pow((" ++ right ++ ").max(0) as u32)"
    else if ty = "u16" then "(" ++ left ++ " as u16).pow((" ++ right ++ ").max(0) as u32)"
    else if ty = "u32" then "(" ++ left ++ " as u32).pow((" ++ right ++ ").max(0) as u32)"
    else if ty = "u64" then "(" ++ left ++ " as u64).pow((" ++ right ++ ").max(0) as u32)"
    else if ty = "usize" then "(" ++ left ++ " as usize).pow((" ++ right ++ ").max(0) as u32)"
    else if ty = "isize" then "(" ++ left ++ " as isize).pow((" ++ right ++ ").max(0) as u32)"
    else "(" ++ left ++ " as f64).powf(" ++ right ++ " as f64)"
  | none => "(" ++ left ++ " as f64).powf(" ++ right ++ " as f64)"

/-- The shared-cell unwrapping of a cast argument (the repeated
`match arg_type` of `transpile_builtin_cast_call` used by the `string`,
`boolean` and numeric branches). -/
def cast_value_expr (arg_type : Option String) (arg_rendered : String) : String :=
  match arg_type with
  | some "Rc<RefCell<String>>" => arg_rendered ++ ".borrow()"
  | some "Arc<Mutex<String>>" => arg_rendered ++ ".lock().unwrap()"
  | some t =>
    if str_starts_with t "Rc<RefCell<" then "*" ++ arg_rendered ++ ".borrow()"
    else if str_starts_with t "Arc<Mutex<" then "*" ++ arg_rendered ++ ".lock().unwrap()"
    else arg_rendered
  | none => arg_rendered

/-- The untyped-argument fallback of the `boolean` cast (the inner
`match &**arg_expr` of `transpile_builtin_cast_call`). -/
def fallback_boolean_render (argExpr : Expr) (value_expr : String) : String :=
  match argExpr with
  | .boolLit _ => value_expr
  | .strLit _ => "!(" ++ value_expr ++ ").is_empty()"
  | .numLit _ => "(" ++ value_expr ++ ") != 0"
  | e => if is_boolean_like_expr e then value_expr else "(" ++ value_expr ++ ") != 0"

/-- The numeric-cast name table of `transpile_builtin_cast_call`. -/
def cast_rust_num (func_name : String) : Option String :=
  match func_name with
  | "int8" => some "i8"
  | "int16" => some "i16"
  | "int32" => some "i32"
  | "int64" => some "i64"
  | "int" => some "i32"
  | "number8" => some "i8"
  | "number16" => some "i16"
  | "number32" => some "i32"
  | "number64" => some "i64"
  | "float32" => some "f32"
  | "float64" => some "f64"
  | "float" => some "f64"
  | "number" => some "i32"
  | _ => none

mutual

/-- `transpile_expression` from transpiler/expressions.rs (over the
reduced AST; fallible branches cannot fail on it, so the `Result` is
dropped).  To keep the recursion structural, the bodies of
`transpile_member_access`, `transpile_assign`,
`transpile_call_expression` and `transpile_builtin_cast_call` are
inlined into the corresponding branches; the named wrappers defined
below recover the source's function boundaries definitionally. -/
def transpile_expression : Expr → Scope → String
  | .bin op l r, scope =>
    let left := transpile_expression l scope
    let right := transpile_expression r scope
    match op with
    | .add => left ++ " + " ++ right
    | .sub => left ++ " - " ++ right
    | .mul => left ++ " * " ++ right
    | .div => left ++ " / " ++ right
    | .modOp => left ++ " % " ++ right
    | .lt => left ++ " < " ++ right
    | .ltEq => left ++ " <= " ++ right
    | .gt => left ++ " > " ++ right
    | .gtEq => left ++ " >= " ++ right
    | .eqEq => left ++ " == " ++ right
    | .notEq => left ++ " != " ++ right
    | .logAnd => left ++ " && " ++ right
    | .logOr => left ++ " || " ++ right
    | .exp => transpile_exponentiation l left right scope
    | .otherOp => "?"
  | .ident name, _ => name
  | .thisE, _ => "self"
  | .numLit v, _ => num_value_to_string v
  | .strLit s, _ => "\"" ++ s ++ "\".to_string()"
  | .boolLit b, _ => toString b
  -- transpile_call_expression, identifier callee (the struct-constructor
  -- branch needs an object-literal argument and cannot fire here):
  | .callIdent callee args, scope =>
    let cast := match args with
      | .cons argExpr .nil =>
        -- transpile_builtin_cast_call:
        let arg_rendered := transpile_expression argExpr scope
        let arg_type : Option String :=
          match argExpr with
          | .ident name => scope.get name
          | _ => none
        if callee = "string" then
          some (match arg_type with
            | some "Rc<RefCell<String>>" => arg_rendered ++ ".borrow().to_string()"
            | some "Arc<Mutex<String>>" => arg_rendered ++ ".lock().unwrap().to_string()"
            | some t =>
              if str_starts_with t "Rc<RefCell<" then "(*" ++ arg_rendered ++ ".borrow()).to_string()"
              else if str_starts_with t "Arc<Mutex<" then "(*" ++ arg_rendered ++ ".lock().unwrap()).to_string()"
              else "(" ++ arg_rendered ++ ").to_string()"
            | none => "(" ++ arg_rendered ++ ").to_string()")
        else if callee = "boolean" then
          let value_expr := cast_value_expr arg_type arg_rendered
          some (match arg_type with
            | some "bool" | some "Rc<RefCell<bool>>" | some "Arc<Mutex<bool>>" => value_expr
            | some "String" | some "Rc<RefCell<String>>" | some "Arc<Mutex<String>>" =>
              "!(" ++ value_expr ++ ").is_empty()"
            | some t =>
              if is_numeric_rust_type t then "(" ++ value_expr ++ ") != 0"
              else if str_starts_with t "Rc<RefCell<" ∨ str_starts_with t "Arc<Mutex<" then
                "(" ++ value_expr ++ ") != 0"
              else fallback_boolean_render argExpr value_expr
            | none => fallback_boolean_render argExpr value_expr)
        else
          match cast_rust_num callee with
          | none => none
          | some rust_num =>
            let value_expr := cast_value_expr arg_type arg_rendered
            let string_like :=
              (match arg_type with
                | some "String" | some "Rc<RefCell<String>>" | some "Arc<Mutex<String>>" => true
                | _ => false)
              || (argExpr matches .strLit _)
            some (if string_like then
              "(" ++ value_expr ++ ").parse::<" ++ rust_num ++ ">().unwrap_or_default()"
            else
              "(" ++ value_expr ++ ") as " ++ rust_num)
      | _ => none
    match cast with
    | some cast_expr => cast_expr
    | none =>
      let argStrs := transpile_expr_list args scope
      if callee = "log" ∧ argStrs.length = 2 then
        "log_base(" ++ String.intercalate ", " argStrs ++ ")"
      else
        callee ++ "(" ++ String.intercalate ", " argStrs ++ ")"
  | .arrayLit elems, scope =>
    "vec![" ++ String.intercalate ", " (transpile_expr_list elems scope) ++ "]"
  | .cond t c a, scope =>
    let test := transpile_expression t scope
    let cons := transpile_expression c scope
    let alt := transpile_expression a scope
    "if " ++ test ++ " \x7b " ++ cons ++ " \x7d else \x7b " ++ alt ++ " \x7d"
  -- transpile_member_access, computed property:
  | .member obj (.computed idxExpr), scope =>
    let obj_str := transpile_expression obj scope
    let idx := transpile_expression idxExpr scope
    obj_str ++ "[" ++ idx ++ " as usize]"
  -- transpile_member_access, identifier property:
  | .member obj (.propIdent prop), scope =>
    let obj_str := transpile_expression obj scope
    let module_alias_obj :=
      match ident_name obj with
      | some n =>
        match Scope.get scope n with
        | some t => is_module_alias_binding t
        | none => false
      | none => false
    if module_alias_obj then obj_str ++ "::" ++ prop
    else if prop = "length" then
      let fromScope : Option String :=
        match ident_name obj with
        | some name =>
          match Scope.get scope name with
          | some ty =>
            if is_pointer ty then
              if ty = "Rc<RefCell<String>>" then
                some (obj_str ++ ".borrow().chars().count() as i32")
              else some (obj_str ++ ".borrow().len()")
            else if is_threaded ty then
              if ty = "Arc<Mutex<String>>" then
                some (obj_str ++ ".lock().unwrap().chars().count() as i32")
              else some (obj_str ++ ".lock().unwrap().len()")
            else if ty = "String" then
              some (obj_str ++ ".chars().count() as i32")
            else none
          | none => none
        | none => none
      match fromScope with
      | some out => out
      | none =>
        match obj with
        | .strLit _ => obj_str ++ ".chars().count() as i32"
        | _ => obj_str ++ ".len()"
    else
      match ident_name obj with
      | some name =>
        match Scope.get scope name with
        | some ty =>
          if is_pointer ty then obj_str ++ ".borrow()." ++ prop
          else if is_threaded ty then obj_str ++ ".lock().unwrap()." ++ prop
          else obj_str ++ "." ++ prop
        | none => obj_str ++ "." ++ prop
      | none => obj_str ++ "." ++ prop
  -- transpile_assign, member target:
  | .assignE (.simpleMember obj mprop) value, scope =>
    let value := transpile_expression value scope
    let obj_str := transpile_expression obj scope
    let prop := match mprop with
      | .propIdent s => s
      | .computed _ => "unknown"
    let fromScope : Option String :=
      match ident_name obj with
      | some name =>
        match Scope.get scope name with
        | some ty =>
          if is_pointer ty then
            some (obj_str ++ ".borrow_mut()." ++ prop ++ " = " ++ value)
          else if is_threaded ty then
            some (obj_str ++ ".lock().unwrap()." ++ prop ++ " = " ++ value)
          else none
        | none => none
      | none => none
    match fromScope with
    | some out => out
    | none => obj_str ++ "." ++ prop ++ " = " ++ value
  -- transpile_assign, identifier target:
  | .assignE (.simpleIdent name) value, scope =>
    let value := transpile_expression value scope
    name ++ " = " ++ value
  | .awaitE e, scope => "(" ++ transpile_expression e scope ++ ").join().unwrap()"
  | .paren e, scope => transpile_expression e scope
  | .otherExpr, _ => "unknown_expr"

def transpile_expr_list : ExprList → Scope → List String
  | .nil, _ => []
  | .cons e es, scope => transpile_expression e scope :: transpile_expr_list es scope

end

/-- `transpile_member_access` from transpiler/expressions.rs (wrapper
over the inlined branch of `transpile_expression`). -/
def transpile_member_access (obj : Expr) (prop : MProp) (scope : Scope) : String :=
  transpile_expression (.member obj prop) scope

/-- `transpile_assign` from transpiler/expressions.rs (wrapper over the
inlined branch of `transpile_expression`). -/
def transpile_assign (target : AssignTarget) (value : Expr) (scope : Scope) : String :=
  transpile_expression (.assignE target value) scope

/-- `transpile_call_expression` from transpiler/expressions.rs,
restricted to identifier callees (wrapper over the inlined branch of
`transpile_expression`). -/
def transpile_call_expression (callee : String) (args : ExprList) (scope : Scope) : String :=
  transpile_expression (.callIdent callee args) scope

/-! ### Stdlib resolver (stdlib/mod.rs) and imports (transpiler/imports.rs) -/

/-- `use_statements` from stdlib/math.rs (the literal shim blocks). -/
def math_use_statements : List String := [
  "pub const PI: f64 = std::f64::consts::PI;\npub const E: f64 = std::f64::consts::E;\n\npub trait __TrustMathAbs \x7b\n    fn __trust_abs(self) -> Self;\n\x7d\n\nimpl __TrustMathAbs for i8 \x7b\n    fn __trust_abs(self) -> Self \x7b self.abs() \x7d\n\x7d\nimpl __TrustMathAbs for i16 \x7b\n    fn __trust_abs(self) -> Self \x7b self.abs() \x7d\n\x7d\nimpl __TrustMathAbs for i32 \x7b\n    fn __trust_abs(self) -> Self \x7b self.abs() \x7d\n\x7d\nimpl __TrustMathAbs for i64 \x7b\n    fn __trust_abs(self) -> Self \x7b self.abs() \x7d\n\x7d\nimpl __TrustMathAbs for isize \x7b\n    fn __trust_abs(self) -> Self \x7b self.abs() \x7d\n\x7d\nimpl __TrustMathAbs for f32 \x7b\n    fn __trust_abs(self) -> Self \x7b self.abs() \x7d\n\x7d\nimpl __TrustMathAbs for f64 \x7b\n    fn __trust_abs(self) -> Self \x7b self.abs() \x7d\n\x7d\n\n#[allow(non_snake_case)]\npub fn sqrt<T: Into<f64>>(x: T) -> f64 \x7b\n    x.into().sqrt()\n\x7d\n\n#[allow(non_snake_case)]\npub fn pow<A: Into<f64>, B: Into<f64>>(base: A, exp: B) -> f64 \x7b\n    base.into().powf(exp.into())\n\x7d\n\n#[allow(non_snake_case)]\npub fn log<T: Into<f64>>(value: T) -> f64 \x7b\n    value.into().ln()\n\x7d\n\n#[allow(non_snake_case)]\npub fn log_base<V: Into<f64>, B: Into<f64>>(value: V, base: B) -> f64 \x7b\n    value.into().log(base.into())\n\x7d\n\n#[allow(non_snake_case)]\npub fn abs<T: __TrustMathAbs>(x: T) -> T \x7b\n    x.__trust_abs()\n\x7d\n\n#[allow(non_snake_case)]\npub fn min<T: PartialOrd + Copy>(a: T, b: T) -> T \x7b\n    if a <= b \x7b a \x7d else \x7b b \x7d\n\x7d\n\n#[allow(non_snake_case)]\npub fn max<T: PartialOrd + Copy>(a: T, b: T) -> T \x7b\n    if a >= b \x7b a \x7d else \x7b b \x7d\n\x7d\n\n#[allow(non_snake_case)]\npub fn clamp<T: PartialOrd + Copy>(x: T, lo: T, hi: T) -> T \x7b\n    if x < lo \x7b\n        lo\n    \x7d else if x > hi \x7b\n        hi\n    \x7d else \x7b\n        x\n    \x7d\n\x7d\n\n#[allow(non_snake_case)]\npub fn sin<T: Into<f64>>(x: T) -> f64 \x7b\n    x.into().sin()\n\x7d\n\n#[allow(non_snake_case)]\npub fn cos<T: Into<f64>>(x: T) -> f64 \x7b\n    x.into().cos()\n\x7d\n\n#[allow(non_snake_case)]\npub fn tan<T: Into<f64>>(x: T) -> f64 \x7b\n    x.into().tan()\n\x7d\n\n#[allow(non_snake_case)]\npub fn asin<T: Into<f64>>(x: T) -> f64 \x7b\n    x.into().asin()\n\x7d\n\n#[allow(non_snake_case)]\npub fn acos<T: Into<f64>>(x: T) -> f64 \x7b\n    x.into().acos()\n\x7d\n\n#[allow(non_snake_case)]\npub fn atan<T: Into<f64>>(x: T) -> f64 \x7b\n    x.into().atan()\n\x7d"
]

/-- `required_crates` from stdlib/math.rs. -/
def math_required_crates : List (String × String) := []

/-- `use_statements` from stdlib/rand.rs (the literal shim blocks). -/
def rand_use_statements : List String := [
  "use rand::Rng;\nuse rand::distributions::\x7bBernoulli, Distribution, WeightedIndex\x7d;\nuse rand::seq::SliceRandom;\n\n#[allow(non_snake_case)]\npub fn random() -> f64 \x7b\n    let mut rng = rand::thread_rng();\n    rng.gen::<f64>()\n\x7d\n\n#[allow(non_snake_case)]\npub fn randomInt(min: i32, max: i32) -> i32 \x7b\n    let mut rng = rand::thread_rng();\n    if min <= max \x7b\n        rng.gen_range(min..=max)\n    \x7d else \x7b\n        rng.gen_range(max..=min)\n    \x7d\n\x7d\n\n#[allow(non_snake_case)]\npub fn randomFloat(min: f64, max: f64) -> f64 \x7b\n    let mut rng = rand::thread_rng();\n    let lo = min.min(max);\n    let hi = min.max(max);\n    if (hi - lo).abs() < f64::EPSILON \x7b\n        lo\n    \x7d else \x7b\n        rng.gen_range(lo..hi)\n    \x7d\n\x7d\n\n#[allow(non_snake_case)]\npub fn bernoulli(p: f64) -> bool \x7b\n    let mut rng = rand::thread_rng();\n    let prob = p.clamp(0.0, 1.0);\n    Bernoulli::new(prob).map(|d| d.sample(&mut rng)).unwrap_or(false)\n\x7d\n\n#[allow(non_snake_case)]\npub fn weightedIndex(weights: Vec<f64>) -> i32 \x7b\n    let mut rng = rand::thread_rng();\n    match WeightedIndex::new(weights) \x7b\n        Ok(dist) => dist.sample(&mut rng) as i32,\n        Err(_) => -1,\n    \x7d\n\x7d\n\n#[allow(non_snake_case)]\npub fn chooseOne<T: Clone>(items: Vec<T>) -> Option<T> \x7b\n    let mut rng = rand::thread_rng();\n    items.choose(&mut rng).cloned()\n\x7d\n\n#[allow(non_snake_case)]\npub fn shuffle<T: Clone>(items: Vec<T>) -> Vec<T> \x7b\n    let mut rng = rand::thread_rng();\n    let mut out = items.clone();\n    out.shuffle(&mut rng);\n    out\n\x7d"
]

/-- `required_crates` from stdlib/rand.rs. -/
def rand_required_crates : List (String × String) := [("rand", "0.8")]

/-- `use_statements` from stdlib/time.rs (the literal shim blocks). -/
def time_use_statements : List String := [
  "use std::time::\x7bInstant, Duration, SystemTime as RustSystemTime\x7d;",
  "use std::thread::sleep;",
  "const TRUST_MILLIS_PER_SECOND: i64 = 1_000;\nconst TRUST_MILLIS_PER_MINUTE: i64 = 60_000;\nconst TRUST_MILLIS_PER_HOUR: i64 = 3_600_000;\nconst TRUST_MILLIS_PER_DAY: i64 = 86_400_000;\n\nfn __trust_days_from_civil(year: i32, month: u32, day: u32) -> i64 \x7b\n    let y = year as i64 - if month <= 2 \x7b 1 \x7d else \x7b 0 \x7d;\n    let era = if y >= 0 \x7b y \x7d else \x7b y - 399 \x7d / 400;\n    let yoe = y - era * 400;\n    let m = month as i64;\n    let doy = (153 * (m + if m > 2 \x7b -3 \x7d else \x7b 9 \x7d) + 2) / 5 + day as i64 - 1;\n    let doe = yoe * 365 + yoe / 4 - yoe / 100 + doy;\n    era * 146_097 + doe - 719_468\n\x7d\n\nfn __trust_civil_from_days(days: i64) -> (i32, u32, u32) \x7b\n    let z = days + 719_468;\n    let era = if z >= 0 \x7b z \x7d else \x7b z - 146_096 \x7d / 146_097;\n    let doe = z - era * 146_097;\n    let yoe = (doe - doe / 1_460 + doe / 36_524 - doe / 146_096) / 365;\n    let y = yoe + era * 400;\n    let doy = doe - (365 * yoe + yoe / 4 - yoe / 100);\n    let mp = (5 * doy + 2) / 153;\n    let day = doy - (153 * mp + 2) / 5 + 1;\n    let month = mp + if mp < 10 \x7b 3 \x7d else \x7b -9 \x7d;\n    let year = y + if month <= 2 \x7b 1 \x7d else \x7b 0 \x7d;\n    (year as i32, month as u32, day as u32)\n\x7d\n\nfn __trust_time_from_millis_of_day(millis: i64) -> Time \x7b\n    let clamped = millis.clamp(0, TRUST_MILLIS_PER_DAY - 1);\n    let hour = (clamped / TRUST_MILLIS_PER_HOUR) as u32;\n    let minute = ((clamped % TRUST_MILLIS_PER_HOUR) / TRUST_MILLIS_PER_MINUTE) as u32;\n    let second = ((clamped % TRUST_MILLIS_PER_MINUTE) / TRUST_MILLIS_PER_SECOND) as u32;\n    let millisecond = (clamped % TRUST_MILLIS_PER_SECOND) as u32;\n    Time \x7b hour, minute, second, millisecond \x7d\n\x7d\n\nfn __trust_system_time_to_millis(st: RustSystemTime) -> i64 \x7b\n    match st.duration_since(RustSystemTime::UNIX_EPOCH) \x7b\n        Ok(d) => d.as_millis() as i64,\n        Err(e) => -(e.duration().as_millis() as i64),\n    \x7d\n\x7d\n\nfn __trust_millis_to_system_time(ms: i64) -> RustSystemTime \x7b\n    if ms >= 0 \x7b\n        RustSystemTime::UNIX_EPOCH + Duration::from_millis(ms as u64)\n    \x7d else \x7b\n        RustSystemTime::UNIX_EPOCH - Duration::from_millis(ms.unsigned_abs())\n    \x7d\n\x7d\n\n#[derive(Clone, Copy, Debug, Eq, PartialEq, Ord, PartialOrd)]\npub struct Date \x7b\n    pub year: i32,\n    pub month: u32,\n    pub day: u32,\n\x7d\n\n#[allow(non_snake_case)]\nimpl Date \x7b\n    pub fn fromYmd(year: i32, month: i32, day: i32) -> Date \x7b\n        let month_u = month.clamp(1, 12) as u32;\n        let max_day = Date::daysInMonth(year, month_u as i32) as i32;\n        let day_u = day.clamp(1, max_day) as u32;\n        Date \x7b year, month: month_u, day: day_u \x7d\n    \x7d\n\n    pub fn today() -> Date \x7b\n        Date::fromSystemTime(RustSystemTime::now())\n    \x7d\n\n    pub fn now() -> Date \x7b\n        Date::today()\n    \x7d\n\n    pub fn fromSystemTime(st: RustSystemTime) -> Date \x7b\n        let millis = __trust_system_time_to_millis(st);\n        let days = millis.div_euclid(TRUST_MILLIS_PER_DAY);\n        let (year, month, day) = __trust_civil_from_days(days);\n        Date \x7b year, month, day \x7d\n    \x7d\n\n    pub fn toSystemTime(&self) -> RustSystemTime \x7b\n        let days = __trust_days_from_civil(self.year, self.month, self.day);\n        let millis = days.saturating_mul(TRUST_MILLIS_PER_DAY);\n        __trust_millis_to_system_time(millis)\n    \x7d\n\n    pub fn toUnixDays(&self) -> i64 \x7b\n        __trust_days_from_civil(self.year, self.month, self.day)\n    \x7d\n\n    pub fn dayOfWeek(&self) -> i32 \x7b\n        ((self.toUnixDays() + 4).rem_euclid(7)) as i32\n    \x7d\n\n    pub fn isLeapYear(year: i32) -> bool \x7b\n        (year % 4 == 0 && year % 100 != 0) || (year % 400 == 0)\n    \x7d\n\n    pub fn daysInMonth(year: i32, month: i32) -> u32 \x7b\n        match month \x7b\n            1 | 3 | 5 | 7 | 8 | 10 | 12 => 31,\n            4 | 6 | 9 | 11 => 30,\n            2 => if Date::isLeapYear(year) \x7b 29 \x7d else \x7b 28 \x7d,\n            _ => 30,\n        \x7d\n    \x7d\n\n    pub fn addDays(&self, days: i32) -> Date \x7b\n        let next_days = self.toUnixDays().saturating_add(days as i64);\n        let (year, month, day) = __trust_civil_from_days(next_days);\n        Date \x7b year, month, day \x7d\n    \x7d\n\n    pub fn addMonths(&self, months: i32) -> Date \x7b\n        let total_months = (self.year as i64)\n            .saturating_mul(12)\n            .saturating_add(self.month as i64 - 1)\n            .saturating_add(months as i64);\n        let new_year_i64 = total_months.div_euclid(12);\n        let new_month_i64 = total_months.rem_euclid(12) + 1;\n        let new_year = new_year_i64.clamp(i32::MIN as i64, i32::MAX as i64) as i32;\n        let new_month = new_month_i64 as i32;\n        let max_day = Date::daysInMonth(new_year, new_month);\n        Date \x7b\n            year: new_year,\n            month: new_month as u32,\n            day: self.day.min(max_day),\n        \x7d\n    \x7d\n\n    pub fn addYears(&self, years: i32) -> Date \x7b\n        self.addMonths(years.saturating_mul(12))\n    \x7d\n\n    pub fn subDays(&self, days: i32) -> Date \x7b\n        self.addDays(days.saturating_neg())\n    \x7d\n\n    pub fn subMonths(&self, months: i32) -> Date \x7b\n        self.addMonths(months.saturating_neg())\n    \x7d\n\n    pub fn subYears(&self, years: i32) -> Date \x7b\n        self.addYears(years.saturating_neg())\n    \x7d\n\n    pub fn compare(a: Date, b: Date) -> i32 \x7b\n        use std::cmp::Ordering;\n        match a.cmp(&b) \x7b\n            Ordering::Less => -1,\n            Ordering::Equal => 0,\n            Ordering::Greater => 1,\n        \x7d\n    \x7d\n\n    pub fn toString(&self) -> String \x7b\n        format!(\"\x7b:04\x7d-\x7b:02\x7d-\x7b:02\x7d\", self.year, self.month, self.day)\n    \x7d\n\n    pub fn toIsoString(&self) -> String \x7b\n        self.toString()\n    \x7d\n\x7d\n\n#[derive(Clone, Copy, Debug, Eq, PartialEq, Ord, PartialOrd)]\npub struct Time \x7b\n    pub hour: u32,\n    pub minute: u32,\n    pub second: u32,\n    pub millisecond: u32,\n\x7d\n\n#[allow(non_snake_case)]\nimpl Time \x7b\n    pub fn fromHms(hour: i32, minute: i32, second: i32) -> Time \x7b\n        Time::fromHmsMilli(hour, minute, second, 0)\n    \x7d\n\n    pub fn fromHmsMilli(hour: i32, minute: i32, second: i32, millisecond: i32) -> Time \x7b\n        let mut total = (hour as i64).saturating_mul(TRUST_MILLIS_PER_HOUR);\n        total = total.saturating_add((minute as i64).saturating_mul(TRUST_MILLIS_PER_MINUTE));\n        total = total.saturating_add((second as i64).saturating_mul(TRUST_MILLIS_PER_SECOND));\n        total = total.saturating_add(millisecond as i64);\n        let normalized = total.rem_euclid(TRUST_MILLIS_PER_DAY);\n        __trust_time_from_millis_of_day(normalized)\n    \x7d\n\n    pub fn midnight() -> Time \x7b\n        Time \x7b hour: 0, minute: 0, second: 0, millisecond: 0 \x7d\n    \x7d\n\n    pub fn now() -> Time \x7b\n        Time::fromSystemTime(RustSystemTime::now())\n    \x7d\n\n    pub fn fromSystemTime(st: RustSystemTime) -> Time \x7b\n        let millis = __trust_system_time_to_millis(st);\n        let day_millis = millis.rem_euclid(TRUST_MILLIS_PER_DAY);\n        __trust_time_from_millis_of_day(day_millis)\n    \x7d\n\n    pub fn toMillisOfDay(&self) -> i64 \x7b\n        (self.hour as i64).saturating_mul(TRUST_MILLIS_PER_HOUR)\n            .saturating_add((self.minute as i64).saturating_mul(TRUST_MILLIS_PER_MINUTE))\n            .saturating_add((self.second as i64).saturating_mul(TRUST_MILLIS_PER_SECOND))\n            .saturating_add(self.millisecond as i64)\n    \x7d\n\n    pub fn addSeconds(&self, seconds: i32) -> Time \x7b\n        let delta = (seconds as i64).saturating_mul(TRUST_MILLIS_PER_SECOND);\n        let normalized = self.toMillisOfDay().saturating_add(delta).rem_euclid(TRUST_MILLIS_PER_DAY);\n        __trust_time_from_millis_of_day(normalized)\n    \x7d\n\n    pub fn addMinutes(&self, minutes: i32) -> Time \x7b\n        self.addSeconds(minutes.saturating_mul(60))\n    \x7d\n\n    pub fn addHours(&self, hours: i32) -> Time \x7b\n        self.addMinutes(hours.saturating_mul(60))\n    \x7d\n\n    pub fn subSeconds(&self, seconds: i32) -> Time \x7b\n        self.addSeconds(seconds.saturating_neg())\n    \x7d\n\n    pub fn subMinutes(&self, minutes: i32) -> Time \x7b\n        self.addMinutes(minutes.saturating_neg())\n    \x7d\n\n    pub fn subHours(&self, hours: i32) -> Time \x7b\n        self.addHours(hours.saturating_neg())\n    \x7d\n\n    pub fn compare(a: Time, b: Time) -> i32 \x7b\n        use std::cmp::Ordering;\n        match a.cmp(&b) \x7b\n            Ordering::Less => -1,\n            Ordering::Equal => 0,\n            Ordering::Greater => 1,\n        \x7d\n    \x7d\n\n    pub fn toString(&self) -> String \x7b\n        format!(\"\x7b:02\x7d:\x7b:02\x7d:\x7b:02\x7d.\x7b:03\x7d\", self.hour, self.minute, self.second, self.millisecond)\n    \x7d\n\n    pub fn toIsoString(&self) -> String \x7b\n        self.toString()\n    \x7d\n\x7d\n\n#[derive(Clone, Copy, Debug, Eq, PartialEq, Ord, PartialOrd)]\npub struct DateTime \x7b\n    pub date: Date,\n    pub time: Time,\n\x7d\n\n#[allow(non_snake_case)]\nimpl DateTime \x7b\n    pub fn fromParts(date: Date, time: Time) -> DateTime \x7b\n        DateTime \x7b date, time \x7d\n    \x7d\n\n    pub fn now() -> DateTime \x7b\n        DateTime::fromSystemTime(RustSystemTime::now())\n    \x7d\n\n    pub fn fromSystemTime(st: RustSystemTime) -> DateTime \x7b\n        DateTime \x7b date: Date::fromSystemTime(st), time: Time::fromSystemTime(st) \x7d\n    \x7d\n\n    pub fn toSystemTime(&self) -> RustSystemTime \x7b\n        __trust_millis_to_system_time(self.toTimestampMillis())\n    \x7d\n\n    pub fn fromTimestampMillis(ms: i64) -> DateTime \x7b\n        let days = ms.div_euclid(TRUST_MILLIS_PER_DAY);\n        let day_millis = ms.rem_euclid(TRUST_MILLIS_PER_DAY);\n        let (year, month, day) = __trust_civil_from_days(days);\n        DateTime \x7b\n            date: Date \x7b year, month, day \x7d,\n            time: __trust_time_from_millis_of_day(day_millis),\n        \x7d\n    \x7d\n\n    pub fn toTimestampMillis(&self) -> i64 \x7b\n        let days = self.date.toUnixDays();\n        days.saturating_mul(TRUST_MILLIS_PER_DAY)\n            .saturating_add(self.time.toMillisOfDay())\n    \x7d\n\n    pub fn addSeconds(&self, seconds: i32) -> DateTime \x7b\n        let delta = (seconds as i64).saturating_mul(TRUST_MILLIS_PER_SECOND);\n        DateTime::fromTimestampMillis(self.toTimestampMillis().saturating_add(delta))\n    \x7d\n\n    pub fn addMinutes(&self, minutes: i32) -> DateTime \x7b\n        self.addSeconds(minutes.saturating_mul(60))\n    \x7d\n\n    pub fn addHours(&self, hours: i32) -> DateTime \x7b\n        self.addMinutes(hours.saturating_mul(60))\n    \x7d\n\n    pub fn addDays(&self, days: i32) -> DateTime \x7b\n        let delta = (days as i64).saturating_mul(TRUST_MILLIS_PER_DAY);\n        DateTime::fromTimestampMillis(self.toTimestampMillis().saturating_add(delta))\n    \x7d\n\n    pub fn addMonths(&self, months: i32) -> DateTime \x7b\n        DateTime \x7b\n            date: self.date.addMonths(months),\n            time: self.time,\n        \x7d\n    \x7d\n\n    pub fn addYears(&self, years: i32) -> DateTime \x7b\n        self.addMonths(years.saturating_mul(12))\n    \x7d\n\n    pub fn subSeconds(&self, seconds: i32) -> DateTime \x7b\n        self.addSeconds(seconds.saturating_neg())\n    \x7d\n\n    pub fn subMinutes(&self, minutes: i32) -> DateTime \x7b\n        self.addMinutes(minutes.saturating_neg())\n    \x7d\n\n    pub fn subHours(&self, hours: i32) -> DateTime \x7b\n        self.addHours(hours.saturating_neg())\n    \x7d\n\n    pub fn subDays(&self, days: i32) -> DateTime \x7b\n        self.addDays(days.saturating_neg())\n    \x7d\n\n    pub fn subMonths(&self, months: i32) -> DateTime \x7b\n        self.addMonths(months.saturating_neg())\n    \x7d\n\n    pub fn subYears(&self, years: i32) -> DateTime \x7b\n        self.addYears(years.saturating_neg())\n    \x7d\n\n    pub fn startOfDay(&self) -> DateTime \x7b\n        DateTime \x7b date: self.date, time: Time::midnight() \x7d\n    \x7d\n\n    pub fn endOfDay(&self) -> DateTime \x7b\n        DateTime \x7b\n            date: self.date,\n            time: Time::fromHmsMilli(23, 59, 59, 999),\n        \x7d\n    \x7d\n\n    pub fn compare(a: DateTime, b: DateTime) -> i32 \x7b\n        use std::cmp::Ordering;\n        match a.cmp(&b) \x7b\n            Ordering::Less => -1,\n            Ordering::Equal => 0,\n            Ordering::Greater => 1,\n        \x7d\n    \x7d\n\n    pub fn toString(&self) -> String \x7b\n        format!(\"\x7b\x7dT\x7b\x7dZ\", self.date.toString(), self.time.toString())\n    \x7d\n\n    pub fn toIsoString(&self) -> String \x7b\n        self.toString()\n    \x7d\n\x7d\n\npub type SystemTime = DateTime;\n\n#[allow(non_snake_case)]\nfn compare(a: DateTime, b: DateTime) -> i32 \x7b\n    DateTime::compare(a, b)\n\x7d\n\n#[allow(non_snake_case)]\nfn addSeconds(dateTime: DateTime, seconds: i32) -> DateTime \x7b\n    dateTime.addSeconds(seconds)\n\x7d\n\n#[allow(non_snake_case)]\nfn addMinutes(dateTime: DateTime, minutes: i32) -> DateTime \x7b\n    dateTime.addMinutes(minutes)\n\x7d\n\n#[allow(non_snake_case)]\nfn addDays(dateTime: DateTime, days: i32) -> DateTime \x7b\n    dateTime.addDays(days)\n\x7d\n\n#[allow(non_snake_case)]\nfn addMonths(dateTime: DateTime, months: i32) -> DateTime \x7b\n    dateTime.addMonths(months)\n\x7d\n\n#[allow(non_snake_case)]\nfn addYears(dateTime: DateTime, years: i32) -> DateTime \x7b\n    dateTime.addYears(years)\n\x7d\n\n#[allow(non_snake_case)]\nfn subSeconds(dateTime: DateTime, seconds: i32) -> DateTime \x7b\n    dateTime.subSeconds(seconds)\n\x7d\n\n#[allow(non_snake_case)]\nfn subMinutes(dateTime: DateTime, minutes: i32) -> DateTime \x7b\n    dateTime.subMinutes(minutes)\n\x7d\n\n#[allow(non_snake_case)]\nfn subDays(dateTime: DateTime, days: i32) -> DateTime \x7b\n    dateTime.subDays(days)\n\x7d\n\n#[allow(non_snake_case)]\nfn subMonths(dateTime: DateTime, months: i32) -> DateTime \x7b\n    dateTime.subMonths(months)\n\x7d\n\n#[allow(non_snake_case)]\nfn subYears(dateTime: DateTime, years: i32) -> DateTime \x7b\n    dateTime.subYears(years)\n\x7d"
]

/-- `required_crates` from stdlib/time.rs. -/
def time_required_crates : List (String × String) := []

/-- `use_statements` from stdlib/json.rs (the literal shim blocks). -/
def json_use_statements : List String := [
  "use serde_json::Value;",
  "#[allow(non_snake_case)]\npub fn parseToJSON(json: String) -> Value \x7b\n    serde_json::from_str(&json).unwrap_or(Value::Null)\n\x7d\n\n#[allow(non_snake_case)]\npub fn stringify<T: serde::Serialize>(value: T) -> String \x7b\n    serde_json::to_string(&value).unwrap_or(\"null\".to_string())\n\x7d\n\n#[allow(non_snake_case)]\npub fn toJSON<T: serde::Serialize>(value: T) -> String \x7b\n    stringify(value)\n\x7d\n\n#[allow(non_snake_case)]\npub fn fromJSON<T: serde::de::DeserializeOwned>(json: String) -> T \x7b\n    serde_json::from_str(&json).unwrap()\n\x7d"
]

/-- `required_crates` from stdlib/json.rs. -/
def json_required_crates : List (String × String) := [("serde", "1"), ("serde_derive", "1"), ("serde_json", "1")]

/-- `StdlibModule` from stdlib/mod.rs. -/
structure StdlibModule where
  use_statements : List String
  required_crates : List (String × String)

/-- `resolve` from stdlib/mod.rs.  Note the absence of an `"http"` arm:
`mod.rs` neither declares `pub mod http;` nor matches `"http"`, although
`stdlib/http.rs` exists in the crate. -/
def stdlib_resolve (module_name : String) : Option StdlibModule :=
  if module_name = "math" then
    some ⟨math_use_statements, math_required_crates⟩
  else if module_name = "rand" then
    some ⟨rand_use_statements, rand_required_crates⟩
  else if module_name = "time" then
    some ⟨time_use_statements, time_required_crates⟩
  else if module_name = "json" then
    some ⟨json_use_statements, json_required_crates⟩
  else none

/-- Rust's `str::strip_prefix`. -/
def str_strip_prefix (s pre : String) : Option String :=
  if pre.data.isPrefixOf s.data then some (String.mk (s.data.drop pre.data.length))
  else none

/-- Rust's `str::replace('/', "::")` specialised to the import-path
rewrite. -/
def replace_slashes : List Char → List Char
  | [] => []
  | '/' :: rest => ':' :: ':' :: replace_slashes rest
  | c :: rest => c :: replace_slashes rest

/-- `module_path.split("::").next().unwrap_or("")`: the leading segment
of a `::`-separated path. -/
def top_level_segment : List Char → List Char
  | ':' :: ':' :: _ => []
  | c :: rest => c :: top_level_segment rest
  | [] => []

/-- The import-specifier forms of `swc` (`Named`, `Default`,
`Namespace`). -/
inductive ImportSpecifier where
  | namedS (localName : String)
  | defaultS (localName : String)
  | namespaceS (localName : String)
  deriving DecidableEq, Repr

/-- An `ImportDecl`: source string plus specifiers. -/
structure ImportDecl where
  src : String
  specifiers : List ImportSpecifier
  deriving Repr

/-- `ImportInfo` from transpiler/imports.rs. -/
structure ImportInfo where
  use_statements : List String
  required_crates : List String
  module_aliases : List String
  deriving DecidableEq, Repr

/-- The `find_map` over `Default` specifiers in `transpile_import`. -/
def find_default_alias : List ImportSpecifier → Option String
  | [] => none
  | .defaultS l :: _ => some l
  | _ :: rest => find_default_alias rest

/-- `has_non_default_specifier` from `transpile_import`. -/
def has_non_default_specifier (specs : List ImportSpecifier) : Bool :=
  specs.any (fun s => !(s matches .defaultS _))

/-- The specifier-name list of the external-crate arm (`Default` is
unreachable there because that arm runs only when no default alias is
present; it is rendered as the empty string). -/
def specifier_names : List ImportSpecifier → List String
  | [] => []
  | .namedS l :: rest => l :: specifier_names rest
  | .defaultS _ :: rest => "" :: specifier_names rest
  | .namespaceS l :: rest => ("* as " ++ l) :: specifier_names rest

/-- The `crate_name` computation of `transpile_import`: the top path
segment, except that `std`/`core`/`alloc` create no requirement. -/
def crate_name_of (module_path : String) : Option String :=
  let top_level := String.mk (top_level_segment module_path.data)
  if top_level = "std" ∨ top_level = "core" ∨ top_level = "alloc" then none
  else some top_level

/-- `transpile_import` from transpiler/imports.rs. -/
def transpile_import (imp : ImportDecl) : Except String ImportInfo :=
  let default_alias := find_default_alias imp.specifiers
  let has_non_default := has_non_default_specifier imp.specifiers
  match str_strip_prefix imp.src "trusty:" with
  | some module_name =>
    if default_alias.isSome ∧ has_non_default then
      .error "Mixed default + named imports are not supported for trusty:* modules."
    else
      match stdlib_resolve module_name with
      | some stdlib_mod =>
        match default_alias with
        | some aliasName =>
          if module_name ≠ "math" then
            .error "Default import alias is currently supported only for \"trusty:math\"."
          else
            let wrapped_module :=
              "mod __trusty_" ++ module_name ++ " \x7b\n"
                ++ String.intercalate "\n" stdlib_mod.use_statements
                ++ "\n\x7d\nuse __trusty_" ++ module_name ++ " as " ++ aliasName ++ ";"
            .ok ⟨[wrapped_module], stdlib_mod.required_crates.map Prod.fst, [aliasName]⟩
        | none =>
          .ok ⟨stdlib_mod.use_statements, stdlib_mod.required_crates.map Prod.fst, []⟩
      | none =>
        .ok ⟨["// trusty:" ++ module_name ++ " — module not yet implemented"], [], []⟩
  | none =>
    if str_starts_with imp.src "." then
      if default_alias.isSome then
        .error "Default import aliases are not supported for local TRUST modules yet."
      else .ok ⟨[], [], []⟩
    else
      let module_path := String.mk (replace_slashes imp.src.data)
      match default_alias with
      | some aliasName =>
        if has_non_default then
          .error "Mixed default + named imports are not supported for external crates."
        else
          .ok ⟨["use " ++ module_path ++ " as " ++ aliasName ++ ";"],
            (crate_name_of module_path).toList, [aliasName]⟩
      | none =>
        let names := specifier_names imp.specifiers
        let use_statement :=
          match names with
          | [] => "use " ++ module_path ++ ";"
          | [n] => "use " ++ module_path ++ "::" ++ n ++ ";"
          | _ => "use " ++ module_path ++ "::\x7b" ++ String.intercalate ", " names ++ "\x7d;"
        .ok ⟨[use_statement], (crate_name_of module_path).toList, []⟩

/-! ### Statements (transpiler/statements.rs)

Reduced `Stmt`: returns, expression statements, variable declarations,
`break`/`continue`, and a wildcard mirroring the source's
`_ => "// Statement non supporté"` arm.  The control-flow statements
(`if`/`while`/`for`/`try`), which recurse into nested statements with
the same `&mut Scope`, and global consts are outside the reduced AST.
Patterns other than `Pat::Ident` in declarators are likewise omitted
(the source renders their name as `unknown` and records no type). -/

/-- `swc`'s `VarDeclKind`. -/
inductive VarDeclKind where
  | varK | letK | constK
  deriving DecidableEq, Repr

/-- A declarator `name[: ann][= init]` with an identifier pattern. -/
structure VarDeclarator where
  name : String
  type_ann : Option TsType
  init : Option Expr

/-- The per-declarator body of the `Stmt::Decl(Decl::Var)` arm of
`transpile_statement`: renders the declaration (if it has an
initializer) and threads the `&mut Scope`. -/
def transpile_var_declarator (binding : String) (decl : VarDeclarator)
    (scope : Scope) : List String × Scope :=
  let name := decl.name
  let type_ann := decl.type_ann.map transpile_type_annotation
  let declared_as_pointer := (type_ann.map is_pointer).getD false
  let declared_as_threaded := (type_ann.map is_threaded).getD false
  match decl.init with
  | none => ([], scope)
  | some init =>
    let init_shared_name : Option String :=
      match init with
      | .ident n =>
        let ty := (scope.get n).getD ""
        if is_pointer ty ∨ is_threaded ty then some n else none
      | _ => none
    let (val, scope) :=
      if declared_as_pointer then
        let expr_str := transpile_expression init scope
        ("Rc::new(RefCell::new(" ++ expr_str ++ "))",
          scope.insert name (type_ann.getD ""))
      else if declared_as_threaded then
        let expr_str := transpile_expression init scope
        ("Arc::new(Mutex::new(" ++ expr_str ++ "))",
          scope.insert name (type_ann.getD ""))
      else
        match init_shared_name with
        | some src =>
          let shared_type := (scope.get src).getD ""
          let clone_fn := if is_threaded shared_type then "Arc::clone" else "Rc::clone"
          (clone_fn ++ "(&" ++ src ++ ")", scope.insert name shared_type)
        | none =>
          let expr_str := transpile_expression init scope
          let scope := match type_ann with
            | some ty => scope.insert name ty
            | none => scope
          (expr_str, scope)
    match type_ann with
    | some ty => ([binding ++ " " ++ name ++ ": " ++ ty ++ " = " ++ val ++ ";"], scope)
    | none => ([binding ++ " " ++ name ++ " = " ++ val ++ ";"], scope)

def transpile_var_declarators (binding : String) :
    List VarDeclarator → Scope → List String × Scope
  | [], scope => ([], scope)
  | d :: ds, scope =>
    let (parts, scope) := transpile_var_declarator binding d scope
    let (rest, scope) := transpile_var_declarators binding ds scope
    (parts ++ rest, scope)

/-- Reduced statement AST. -/
inductive Stmt where
  | returnS (arg : Option Expr)
  | exprS (e : Expr)
  | declVar (kind : VarDeclKind) (decls : List VarDeclarator)
  | breakS
  | continueS
  | otherStmt

/-- `transpile_statement` from transpiler/statements.rs over the reduced
AST, returning the rendered statement together with the updated scope
(the Rust `&mut Scope` made explicit). -/
def transpile_statement (stmt : Stmt) (scope : Scope) : String × Scope :=
  match stmt with
  | .returnS (some arg) => ("return " ++ transpile_expression arg scope ++ ";", scope)
  | .returnS none => ("return;", scope)
  | .exprS e => (transpile_expression e scope ++ ";", scope)
  | .declVar kind decls =>
    let binding := if kind = .varK then "let mut" else "let"
    let (parts, scope) := transpile_var_declarators binding decls scope
    (String.intercalate "\n" parts, scope)
  | .breakS => ("break;", scope)
  | .continueS => ("continue;", scope)
  | .otherStmt => ("// Statement non supporté", scope)

/-- The declarator names a statement introduces into scope. -/
def declared_names : Stmt → List String
  | .declVar _ decls => decls.map (·.name)
  | _ => []

/-- `base_scope` from transpiler/functions.rs: seeds a fresh function
scope with the module aliases, each tagged with the marker. -/
def base_scope (module_aliases : List String) : Scope :=
  module_aliases.foldl (fun s a => s.insert a MODULE_ALIAS_MARKER) Scope.empty

/-! ### Lexical preprocessor (lib.rs)

The index-based scanner loops of the source are rendered as structural
recursions over character lists: inner comment and string skipping `while`
loops become scanner modes, and the source's `chars[i-1]` /
`chars[i+k]` accesses become a carried previous character and list
lookahead.  `char::is_whitespace` is modelled on its ASCII subset. -/

/-- `is_ascii_alphanumeric() || c == '_'` (the `is_ident_char` helpers
of lib.rs). -/
def is_ascii_alphanumeric (c : Char) : Bool :=
  ('a' ≤ c ∧ c ≤ 'z') ∨ ('A' ≤ c ∧ c ≤ 'Z') ∨ ('0' ≤ c ∧ c ≤ '9')

def is_ident_char (c : Char) : Bool := is_ascii_alphanumeric c || c = '_'

/-- Rust `char::is_whitespace`, restricted to its ASCII subset. -/
def is_rust_whitespace (c : Char) : Bool :=
  c = ' ' ∨ c = '\t' ∨ c = '\n' ∨ c = '\r' ∨ c = '\x0b' ∨ c = '\x0c'

def trim_start_chars (l : List Char) : List Char := l.dropWhile is_rust_whitespace

def trim_end_chars (l : List Char) : List Char :=
  (l.reverse.dropWhile is_rust_whitespace).reverse

/-- Rust `str::trim`. -/
def rust_trim (s : String) : String :=
  String.mk (trim_end_chars (trim_start_chars s.data))

/-- Split at every newline (keeping empty segments). -/
def split_on_newline : List Char → List (List Char)
  | [] => [[]]
  | c :: rest =>
    let r := split_on_newline rest
    if c = '\n' then [] :: r
    else
      match r with
      | h :: t => (c :: h) :: t
      | [] => [[c]]

def drop_last_empty : List (List Char) → List (List Char)
  | [] => []
  | [l] => if l = [] then [] else [l]
  | l :: rest => l :: drop_last_empty rest

def strip_cr (l : List Char) : List Char :=
  match l.reverse with
  | c :: t => if c = '\r' then t.reverse else l
  | [] => l

/-- Rust `str::lines`: split on `\n`, drop a final empty segment, strip
one trailing `\r` per line. -/
def rust_lines (s : String) : List String :=
  ((drop_last_empty (split_on_newline s.data)).map strip_cr).map String.mk

/-! #### contains_identifier_in_code (lib.rs) -/

/-- The scanner contexts of `contains_identifier_in_code`; the source's
inline comment-skipping loops are the two comment modes. -/
inductive CicMode where
  | normal | single | double | template | lineComment | blockComment
  deriving DecidableEq

def cic_go (needle : List Char) : Nat → List Char → CicMode → List Char → Bool
  | 0, _, _, ident => ident == needle
  | _ + 1, [], _, ident => ident == needle
  | fuel + 1, c :: rest, mode, ident =>
    match mode with
    | .single =>
      if c = '\\' then
        match rest with
        | _ :: rest2 => cic_go needle fuel rest2 .single ident
        | [] => ident == needle
      else if c = '\'' then cic_go needle fuel rest .normal ident
      else cic_go needle fuel rest .single ident
    | .double =>
      if c = '\\' then
        match rest with
        | _ :: rest2 => cic_go needle fuel rest2 .double ident
        | [] => ident == needle
      else if c = '"' then cic_go needle fuel rest .normal ident
      else cic_go needle fuel rest .double ident
    | .template =>
      if c = '\\' then
        match rest with
        | _ :: rest2 => cic_go needle fuel rest2 .template ident
        | [] => ident == needle
      else if c = '`' then cic_go needle fuel rest .normal ident
      else cic_go needle fuel rest .template ident
    | .lineComment =>
      if c = '\n' then
        -- the skip loop stops at the newline, which the main loop then
        -- treats as an ordinary non-identifier character
        if ident == needle then true else cic_go needle fuel rest .normal []
      else cic_go needle fuel rest .lineComment ident
    | .blockComment =>
      if c = '*' then
        match rest with
        | n :: rest2 =>
          if n = '/' then cic_go needle fuel rest2 .normal ident
          else cic_go needle fuel rest .blockComment ident
        | [] => ident == needle
      else cic_go needle fuel rest .blockComment ident
    | .normal =>
      if c = '/' then
        match rest with
        | n :: rest2 =>
          if n = '/' then cic_go needle fuel rest2 .lineComment ident
          else if n = '*' then cic_go needle fuel rest2 .blockComment ident
          else if ident == needle then true
          else cic_go needle fuel rest .normal []
        | [] =>
          if ident == needle then true else (([] : List Char) == needle)
      else if c = '\'' then cic_go needle fuel rest .single ident
      else if c = '"' then cic_go needle fuel rest .double ident
      else if c = '`' then cic_go needle fuel rest .template ident
      else if is_ident_char c then cic_go needle fuel rest .normal (ident ++ [c])
      else if ident == needle then true
      else cic_go needle fuel rest .normal []

/-- `contains_identifier_in_code` from lib.rs. -/
def contains_identifier_in_code (source needle : String) : Bool :=
  cic_go needle.data (source.data.length + 1) source.data .normal []

/-- The `bail!` message of `reject_unsupported_while`. -/
def while_error_message : String :=
  "`while` is not supported in TRUST. Use `loop (condition) \x7b ... \x7d` instead."

/-- `reject_unsupported_while` from lib.rs. -/
def reject_unsupported_while (source : String) : Except String Unit :=
  if contains_identifier_in_code source "while" then .error while_error_message
  else .ok ()

/-- The deprecation warning of `warn_on_deprecated_number_alias`. -/
def deprecation_warning : String :=
  "⚠️  Deprecated type alias `number` detected. Prefer `int` (or `int32`) / `float`."

/-! #### The textual condition of claim C2 (spec side)

`bare_while_in_code` formalises the claim's wording — "contains the
whole-word identifier `while` outside single-, double-, and
template-quoted string literals and outside line/block comments" — as
the specification side against which the code's scanner
`contains_identifier_in_code` is compared: the source's characters are
masked by the same string/comment contexts the code tracks, every
masked stretch acts as a separator, and `while` must occur as a
maximal identifier run of unmasked characters. -/

/-- Mask the source: `some c` for a character in code position, `none`
for delimiters and characters inside literals or comments. -/
def code_mask_go : Nat → List Char → CicMode → List (Option Char)
  | 0, _, _ => []
  | _ + 1, [], _ => []
  | fuel + 1, c :: rest, mode =>
    match mode with
    | .single =>
      if c = '\\' then
        match rest with
        | _ :: rest2 => none :: none :: code_mask_go fuel rest2 .single
        | [] => [none]
      else if c = '\'' then none :: code_mask_go fuel rest .normal
      else none :: code_mask_go fuel rest .single
    | .double =>
      if c = '\\' then
        match rest with
        | _ :: rest2 => none :: none :: code_mask_go fuel rest2 .double
        | [] => [none]
      else if c = '"' then none :: code_mask_go fuel rest .normal
      else none :: code_mask_go fuel rest .double
    | .template =>
      if c = '\\' then
        match rest with
        | _ :: rest2 => none :: none :: code_mask_go fuel rest2 .template
        | [] => [none]
      else if c = '`' then none :: code_mask_go fuel rest .normal
      else none :: code_mask_go fuel rest .template
    | .lineComment =>
      if c = '\n' then some '\n' :: code_mask_go fuel rest .normal
      else none :: code_mask_go fuel rest .lineComment
    | .blockComment =>
      if c = '*' then
        match rest with
        | n :: rest2 =>
          if n = '/' then none :: none :: code_mask_go fuel rest2 .normal
          else none :: code_mask_go fuel rest .blockComment
        | [] => [none]
      else none :: code_mask_go fuel rest .blockComment
    | .normal =>
      if c = '/' then
        match rest with
        | n :: rest2 =>
          if n = '/' then none :: none :: code_mask_go fuel rest2 .lineComment
          else if n = '*' then none :: none :: code_mask_go fuel rest2 .blockComment
          else some '/' :: code_mask_go fuel rest .normal
        | [] => [some '/']
      else if c = '\'' then none :: code_mask_go fuel rest .single
      else if c = '"' then none :: code_mask_go fuel rest .double
      else if c = '`' then none :: code_mask_go fuel rest .template
      else some c :: code_mask_go fuel rest .normal

/-- The maximal unmasked stretches: every `none` separates segments. -/
def mask_segments : List (Option Char) → List (List Char)
  | [] => [[]]
  | some c :: rest =>
    match mask_segments rest with
    | seg :: segs => (c :: seg) :: segs
    | [] => [[c]]
  | none :: rest => [] :: mask_segments rest

/-- Whether `while` starts here with no identifier character after it. -/
def word_while_at (l : List Char) : Bool :=
  "while".data.isPrefixOf l &&
    (match l.drop 5 with
     | [] => true
     | d :: _ => !is_ident_char d)

/-- Scan a segment for a whole-word `while`; the argument records
whether the previous character was an identifier character. -/
def segment_word_go : Bool → List Char → Bool
  | _, [] => false
  | prevIdent, c :: rest =>
    if !prevIdent && word_while_at (c :: rest) then true
    else segment_word_go (is_ident_char c) rest

/-- The claim's textual condition: the source contains the whole-word
identifier `while` outside string literals and comments. -/
def bare_while_in_code (source : String) : Bool :=
  (mask_segments (code_mask_go (source.data.length + 1) source.data .normal)).any
    (fun seg => segment_word_go false seg)

/-! #### rewrite_word_boolean_ops (lib.rs) -/

/-- The `Mode` enum of `rewrite_word_boolean_ops`. -/
inductive WboMode where
  | normal | lineComment | blockComment | singleString | doubleString | templateString
  deriving DecidableEq

/-- `i == 0 || !is_ident_char(chars[i - 1])`. -/
def prev_ok (prev : Option Char) : Bool :=
  match prev with
  | none => true
  | some p => !is_ident_char p

/-- `i + k >= chars.len() || !is_ident_char(chars[i + k])`. -/
def next_ok (l : List Char) : Bool :=
  match l with
  | [] => true
  | x :: _ => !is_ident_char x

/-- Whether a character list starts with the given character. -/
def head_is (c : Char) (l : List Char) : Bool :=
  match l with
  | x :: _ => x = c
  | [] => false

def rwbo_go : Nat → List Char → WboMode → Option Char → List Char
  | 0, l, _, _ => l
  | _ + 1, [], _, _ => []
  | fuel + 1, c :: rest, mode, prev =>
    match mode with
    | .normal =>
      if c = '/' then
        match rest with
        | n :: rest2 =>
          if n = '/' then c :: n :: rwbo_go fuel rest2 .lineComment (some n)
          else if n = '*' then c :: n :: rwbo_go fuel rest2 .blockComment (some n)
          else c :: rwbo_go fuel rest .normal (some c)
        | [] => [c]
      else if c = '\'' then c :: rwbo_go fuel rest .singleString (some c)
      else if c = '"' then c :: rwbo_go fuel rest .doubleString (some c)
      else if c = '`' then c :: rwbo_go fuel rest .templateString (some c)
      else if c = 'a' then
        match rest with
        | n1 :: n2 :: rest2 =>
          if n1 = 'n' ∧ n2 = 'd' ∧ prev_ok prev ∧ next_ok rest2 then
            '&' :: '&' :: rwbo_go fuel rest2 .normal (some 'd')
          else c :: rwbo_go fuel rest .normal (some c)
        | _ => c :: rwbo_go fuel rest .normal (some c)
      else if c = 'o' then
        match rest with
        | n1 :: rest2 =>
          if n1 = 'r' ∧ prev_ok prev ∧ next_ok rest2 then
            '|' :: '|' :: rwbo_go fuel rest2 .normal (some 'r')
          else c :: rwbo_go fuel rest .normal (some c)
        | [] => [c]
      else if c = 'l' then
        match rest with
        | n1 :: n2 :: n3 :: rest2 =>
          if n1 = 'o' ∧ n2 = 'o' ∧ n3 = 'p'
              ∧ prev_ok prev ∧ next_ok rest2
              ∧ head_is '(' (rest2.dropWhile is_rust_whitespace) then
            'w' :: 'h' :: 'i' :: 'l' :: 'e' :: rwbo_go fuel rest2 .normal (some 'p')
          else c :: rwbo_go fuel rest .normal (some c)
        | _ => c :: rwbo_go fuel rest .normal (some c)
      else c :: rwbo_go fuel rest .normal (some c)
    | .lineComment =>
      c :: rwbo_go fuel rest (if c = '\n' then .normal else .lineComment) (some c)
    | .blockComment =>
      if c = '*' then
        match rest with
        | n :: rest2 =>
          if n = '/' then c :: n :: rwbo_go fuel rest2 .normal (some n)
          else c :: rwbo_go fuel rest .blockComment (some c)
        | [] => [c]
      else c :: rwbo_go fuel rest .blockComment (some c)
    | .singleString =>
      if c = '\\' then
        match rest with
        | n :: rest2 => c :: n :: rwbo_go fuel rest2 .singleString (some n)
        | [] => [c]
      else if c = '\'' then c :: rwbo_go fuel rest .normal (some c)
      else c :: rwbo_go fuel rest .singleString (some c)
    | .doubleString =>
      if c = '\\' then
        match rest with
        | n :: rest2 => c :: n :: rwbo_go fuel rest2 .doubleString (some n)
        | [] => [c]
      else if c = '"' then c :: rwbo_go fuel rest .normal (some c)
      else c :: rwbo_go fuel rest .doubleString (some c)
    | .templateString =>
      if c = '\\' then
        match rest with
        | n :: rest2 => c :: n :: rwbo_go fuel rest2 .templateString (some n)
        | [] => [c]
      else if c = '`' then c :: rwbo_go fuel rest .normal (some c)
      else c :: rwbo_go fuel rest .templateString (some c)

/-- `rewrite_word_boolean_ops` from lib.rs. -/
def rewrite_word_boolean_ops (source : String) : String :=
  String.mk (rwbo_go (source.data.length + 1) source.data .normal none)

/-! #### line-based rewrites (lib.rs) -/

/-- `rewrite_val_declarations` from lib.rs. -/
def rewrite_val_declarations (source : String) : String :=
  String.intercalate "\n" ((rust_lines source).map (fun line =>
    let data := line.data
    let trimmed := trim_start_chars data
    if "val ".data.isPrefixOf trimmed ∨ "val\t".data.isPrefixOf trimmed then
      let indent := data.takeWhile is_rust_whitespace
      String.mk (indent ++ "let ".data ++ trim_start_chars (trimmed.drop 3))
    else line))

/-- `rest.split_once('\x7b')` in `rewrite_implements_blocks`. -/
def split_once_brace : List Char → Option (List Char × List Char)
  | [] => none
  | c :: rest =>
    if c = '\x7b' then some ([], rest)
    else
      match split_once_brace rest with
      | some (a, b) => some (c :: a, b)
      | none => none

def rib_go : List String → Bool → Int → List String
  | [], _, _ => []
  | line :: rest, in_impl, brace_depth =>
    let data := line.data
    let trimmed := trim_start_chars data
    let indent := data.takeWhile is_rust_whitespace
    if !in_impl then
      if "implements ".data.isPrefixOf trimmed then
        match split_once_brace (trimmed.drop 11) with
        | some (target, _) =>
          String.mk (indent ++ "class ".data
              ++ (rust_trim (String.mk target)).data ++ " \x7b".data)
            :: rib_go rest true 1
        | none => line :: rib_go rest false brace_depth
      else line :: rib_go rest false brace_depth
    else
      let rewritten :=
        if "function ".data.isPrefixOf trimmed then
          String.mk (indent ++ trimmed.drop 9)
        else line
      let depth2 := brace_depth + (rewritten.data.count '\x7b' : Int)
          - (rewritten.data.count '\x7d' : Int)
      if depth2 ≤ 0 then rewritten :: rib_go rest false 0
      else rewritten :: rib_go rest true depth2

/-- `rewrite_implements_blocks` from lib.rs. -/
def rewrite_implements_blocks (source : String) : String :=
  String.intercalate "\n" (rib_go (rust_lines source) false 0)

/-- The `.replace("struct ", "interface ")` call of `preprocess`
(left-to-right, non-overlapping). -/
def replace_struct_interface : List Char → List Char
  | 's' :: 't' :: 'r' :: 'u' :: 'c' :: 't' :: ' ' :: rest =>
    'i' :: 'n' :: 't' :: 'e' :: 'r' :: 'f' :: 'a' :: 'c' :: 'e' :: ' '
      :: replace_struct_interface rest
  | c :: rest => c :: replace_struct_interface rest
  | [] => []

/-- The per-line `wait EXPR;` → `(EXPR).join().unwrap();` rewrite of
`preprocess`. -/
def wait_line_rewrite (line : String) : String :=
  let data := line.data
  let trimmed := trim_start_chars data
  if "wait ".data.isPrefixOf trimmed then
    let indent := data.takeWhile is_rust_whitespace
    let rest0 := trimmed.drop 5
    let rest1 := (rest0.reverse.dropWhile (fun c => c = ';')).reverse
    let core := trim_end_chars (trim_start_chars rest1)
    String.mk (indent ++ "(".data ++ core ++ ").join().unwrap();".data)
  else line

/-! #### match-block machinery (lib.rs) -/

/-- The scanner contexts shared by `find_matching`,
`split_top_level_csv` and `find_top_level_arrow`.  These scanners (and
the two above) carry a step-count fuel; every step consumes at least
one character, so the wrappers' `length + 1` fuel never runs out. -/
inductive ScanMode where
  | code | single | double | template | lineC | blockC
  deriving DecidableEq

/-- `find_matching` from lib.rs, as a scan from the opening character:
returns the consumed characters (opening character included, matching
closer excluded) and the remainder after the closer. -/
def find_matching_go (openC closeC : Char) :
    Nat → List Char → ScanMode → Int → List Char → Option (List Char × List Char)
  | 0, _, _, _, _ => none
  | _ + 1, [], _, _, _ => none
  | fuel + 1, c :: rest, mode, depth, acc =>
    match mode with
    | .single =>
      if c = '\\' then
        match rest with
        | n :: rest2 => find_matching_go openC closeC fuel rest2 .single depth (n :: c :: acc)
        | [] => none
      else if c = '\'' then find_matching_go openC closeC fuel rest .code depth (c :: acc)
      else find_matching_go openC closeC fuel rest .single depth (c :: acc)
    | .double =>
      if c = '\\' then
        match rest with
        | n :: rest2 => find_matching_go openC closeC fuel rest2 .double depth (n :: c :: acc)
        | [] => none
      else if c = '"' then find_matching_go openC closeC fuel rest .code depth (c :: acc)
      else find_matching_go openC closeC fuel rest .double depth (c :: acc)
    | .template =>
      if c = '\\' then
        match rest with
        | n :: rest2 => find_matching_go openC closeC fuel rest2 .template depth (n :: c :: acc)
        | [] => none
      else if c = '`' then find_matching_go openC closeC fuel rest .code depth (c :: acc)
      else find_matching_go openC closeC fuel rest .template depth (c :: acc)
    | .lineC =>
      if c = '\n' then find_matching_go openC closeC fuel rest .code depth (c :: acc)
      else find_matching_go openC closeC fuel rest .lineC depth (c :: acc)
    | .blockC =>
      if c = '*' then
        match rest with
        | n :: rest2 =>
          if n = '/' then find_matching_go openC closeC fuel rest2 .code depth (n :: c :: acc)
          else find_matching_go openC closeC fuel rest .blockC depth (c :: acc)
        | [] => none
      else find_matching_go openC closeC fuel rest .blockC depth (c :: acc)
    | .code =>
      if c = '\'' then find_matching_go openC closeC fuel rest .single depth (c :: acc)
      else if c = '"' then find_matching_go openC closeC fuel rest .double depth (c :: acc)
      else if c = '`' then find_matching_go openC closeC fuel rest .template depth (c :: acc)
      else if c = '/' then
        match rest with
        | n :: rest2 =>
          if n = '/' then find_matching_go openC closeC fuel rest .lineC depth (c :: acc)
          else if n = '*' then find_matching_go openC closeC fuel rest2 .blockC depth (n :: c :: acc)
          else find_matching_go openC closeC fuel rest .code depth (c :: acc)
        | [] => find_matching_go openC closeC fuel rest .code depth (c :: acc)
      else if c = openC then find_matching_go openC closeC fuel rest .code (depth + 1) (c :: acc)
      else if c = closeC then
        if depth - 1 = 0 then some (acc.reverse, rest)
        else find_matching_go openC closeC fuel rest .code (depth - 1) (c :: acc)
      else find_matching_go openC closeC fuel rest .code depth (c :: acc)

def find_matching (l : List Char) (openC closeC : Char) : Option (List Char × List Char) :=
  find_matching_go openC closeC (l.length + 1) l .code 0 []

/-- `split_top_level_csv` from lib.rs. -/
def stc_go : Nat → List Char → ScanMode → Int → Int → Int → List Char → List String → List String
  | 0, _, _, _, _, _, cur, parts =>
    let tail := rust_trim (String.mk cur.reverse)
    if tail = "" then parts else parts ++ [tail]
  | _ + 1, [], _, _, _, _, cur, parts =>
    let tail := rust_trim (String.mk cur.reverse)
    if tail = "" then parts else parts ++ [tail]
  | fuel + 1, c :: rest, mode, par, brk, brc, cur, parts =>
    match mode with
    | .single =>
      if c = '\\' then
        match rest with
        | n :: rest2 => stc_go fuel rest2 .single par brk brc (n :: c :: cur) parts
        | [] =>
          let tail := rust_trim (String.mk (c :: cur).reverse)
          if tail = "" then parts else parts ++ [tail]
      else if c = '\'' then stc_go fuel rest .code par brk brc (c :: cur) parts
      else stc_go fuel rest .single par brk brc (c :: cur) parts
    | .double =>
      if c = '\\' then
        match rest with
        | n :: rest2 => stc_go fuel rest2 .double par brk brc (n :: c :: cur) parts
        | [] =>
          let tail := rust_trim (String.mk (c :: cur).reverse)
          if tail = "" then parts else parts ++ [tail]
      else if c = '"' then stc_go fuel rest .code par brk brc (c :: cur) parts
      else stc_go fuel rest .double par brk brc (c :: cur) parts
    | .template =>
      if c = '\\' then
        match rest with
        | n :: rest2 => stc_go fuel rest2 .template par brk brc (n :: c :: cur) parts
        | [] =>
          let tail := rust_trim (String.mk (c :: cur).reverse)
          if tail = "" then parts else parts ++ [tail]
      else if c = '`' then stc_go fuel rest .code par brk brc (c :: cur) parts
      else stc_go fuel rest .template par brk brc (c :: cur) parts
    | .lineC =>
      if c = '\n' then stc_go fuel rest .code par brk brc (c :: cur) parts
      else stc_go fuel rest .lineC par brk brc (c :: cur) parts
    | .blockC =>
      if c = '*' then
        match rest with
        | n :: rest2 =>
          if n = '/' then stc_go fuel rest2 .code par brk brc (n :: c :: cur) parts
          else stc_go fuel rest .blockC par brk brc (c :: cur) parts
        | [] =>
          let tail := rust_trim (String.mk (c :: cur).reverse)
          if tail = "" then parts else parts ++ [tail]
      else stc_go fuel rest .blockC par brk brc (c :: cur) parts
    | .code =>
      if c = '/' then
        match rest with
        | n :: rest2 =>
          if n = '/' then stc_go fuel rest .lineC par brk brc (c :: cur) parts
          else if n = '*' then stc_go fuel rest2 .blockC par brk brc (n :: c :: cur) parts
          else stc_go fuel rest .code par brk brc (c :: cur) parts
        | [] =>
          let tail := rust_trim (String.mk (c :: cur).reverse)
          if tail = "" then parts else parts ++ [tail]
      else if c = '\'' then stc_go fuel rest .single par brk brc (c :: cur) parts
      else if c = '"' then stc_go fuel rest .double par brk brc (c :: cur) parts
      else if c = '`' then stc_go fuel rest .template par brk brc (c :: cur) parts
      else if c = '(' then stc_go fuel rest .code (par + 1) brk brc (c :: cur) parts
      else if c = ')' then stc_go fuel rest .code (par - 1) brk brc (c :: cur) parts
      else if c = '[' then stc_go fuel rest .code par (brk + 1) brc (c :: cur) parts
      else if c = ']' then stc_go fuel rest .code par (brk - 1) brc (c :: cur) parts
      else if c = '\x7b' then stc_go fuel rest .code par brk (brc + 1) (c :: cur) parts
      else if c = '\x7d' then stc_go fuel rest .code par brk (brc - 1) (c :: cur) parts
      else if c = ',' ∧ par = 0 ∧ brk = 0 ∧ brc = 0 then
        let part := rust_trim (String.mk cur.reverse)
        stc_go fuel rest .code par brk brc []
          (if part = "" then parts else parts ++ [part])
      else stc_go fuel rest .code par brk brc (c :: cur) parts

def split_top_level_csv (input : String) : List String :=
  stc_go (input.data.length + 1) input.data .code 0 0 0 [] []

/-- `find_top_level_arrow` from lib.rs, returning the split around the
first top-level `=>` (this scanner has no comment handling in the
source). -/
def fta_go : Nat → List Char → ScanMode → Int → Int → Int → List Char → Option (List Char × List Char)
  | 0, _, _, _, _, _, _ => none
  | _ + 1, [], _, _, _, _, _ => none
  | fuel + 1, c :: rest, mode, par, brk, brc, acc =>
    match mode with
    | .single =>
      if c = '\\' then
        match rest with
        | n :: rest2 => fta_go fuel rest2 .single par brk brc (n :: c :: acc)
        | [] => none
      else if c = '\'' then fta_go fuel rest .code par brk brc (c :: acc)
      else fta_go fuel rest .single par brk brc (c :: acc)
    | .double =>
      if c = '\\' then
        match rest with
        | n :: rest2 => fta_go fuel rest2 .double par brk brc (n :: c :: acc)
        | [] => none
      else if c = '"' then fta_go fuel rest .code par brk brc (c :: acc)
      else fta_go fuel rest .double par brk brc (c :: acc)
    | .template =>
      if c = '\\' then
        match rest with
        | n :: rest2 => fta_go fuel rest2 .template par brk brc (n :: c :: acc)
        | [] => none
      else if c = '`' then fta_go fuel rest .code par brk brc (c :: acc)
      else fta_go fuel rest .template par brk brc (c :: acc)
    | .lineC => none
    | .blockC => none
    | .code =>
      if c = '\'' then fta_go fuel rest .single par brk brc (c :: acc)
      else if c = '"' then fta_go fuel rest .double par brk brc (c :: acc)
      else if c = '`' then fta_go fuel rest .template par brk brc (c :: acc)
      else if c = '(' then fta_go fuel rest .code (par + 1) brk brc (c :: acc)
      else if c = ')' then fta_go fuel rest .code (par - 1) brk brc (c :: acc)
      else if c = '[' then fta_go fuel rest .code par (brk + 1) brc (c :: acc)
      else if c = ']' then fta_go fuel rest .code par (brk - 1) brc (c :: acc)
      else if c = '\x7b' then fta_go fuel rest .code par brk (brc + 1) (c :: acc)
      else if c = '\x7d' then fta_go fuel rest .code par brk (brc - 1) (c :: acc)
      else if c = '=' then
        match rest with
        | n :: rest2 =>
          if n = '>' ∧ par = 0 ∧ brk = 0 ∧ brc = 0 then some (acc.reverse, rest2)
          else fta_go fuel rest .code par brk brc (c :: acc)
        | [] => none
      else fta_go fuel rest .code par brk brc (c :: acc)

def find_top_level_arrow_split (s : String) : Option (String × String) :=
  match fta_go (s.data.length + 1) s.data .code 0 0 0 [] with
  | some (before, after) => some (String.mk before, String.mk after)
  | none => none

/-- The arm-processing loop of `build_match_expr`: accumulates the
`(condition, result)` pairs in order and the (last) `default` arm. -/
def collect_arms (mid : Nat) :
    List String → List (String × String) → Option String →
    Option (List (String × String) × Option String)
  | [], conds, dflt => some (conds, dflt)
  | arm :: rest, conds, dflt =>
    match find_top_level_arrow_split arm with
    | none => none
    | some (b, a) =>
      let pattern := rust_trim b
      let expr := rust_trim a
      if pattern = "" ∨ expr = "" then none
      else if pattern = "default" then collect_arms mid rest conds (some expr)
      else if head_is '[' pattern.data ∧ head_is ']' pattern.data.reverse then
        let list_inner := rust_trim (String.mk ((pattern.data.drop 1).dropLast))
        collect_arms mid rest
          (conds ++ [("[" ++ list_inner ++ "].contains(&__trust_match_"
            ++ toString mid ++ ")", expr)]) dflt
      else
        collect_arms mid rest
          (conds ++ [("__trust_match_" ++ toString mid ++ " == (" ++ pattern ++ ")",
            expr)]) dflt

/-- The `if`/`else if` chain emission of `build_match_expr`. -/
def if_chain_go (first : Bool) : List (String × String) → String
  | [] => ""
  | (c, e) :: rest =>
    (if first then "if " else "else if ") ++ c ++ " \x7b " ++ e ++ " \x7d "
      ++ if_chain_go false rest

/-- `build_match_expr` from lib.rs. -/
def build_match_expr (subject body : String) (match_id : Nat) : Option String :=
  let arms := split_top_level_csv body
  if arms = [] then none
  else
    match collect_arms match_id arms [] none with
    | none => none
    | some (conds, dflt) =>
      let head := "(\x7b let __trust_match_" ++ toString match_id ++ " = "
        ++ subject ++ "; "
      match conds with
      | [] =>
        match dflt with
        | none => none
        | some d => some (head ++ d ++ " \x7d)")
      | _ =>
        let chain := if_chain_go true conds
        let else_part :=
          match dflt with
          | some d => "else \x7b " ++ d ++ " \x7d "
          | none => "else \x7b panic!(\"non-exhaustive match\") \x7d "
        some (head ++ chain ++ else_part ++ "\x7d)")

/-- The main scan of `rewrite_match_blocks`; `fuel` bounds the number
of steps (every step consumes at least one character, so the input
length suffices). -/
def rmb_go : Nat → List Char → Option Char → Nat → List Char
  | 0, l, _, _ => l
  | _ + 1, [], _, _ => []
  | fuel + 1, 'm' :: 'a' :: 't' :: 'c' :: 'h' :: rest2, prev, mid =>
    let fallback := 'm' :: rmb_go fuel ('a' :: 't' :: 'c' :: 'h' :: rest2) (some 'm') mid
    if prev_ok prev ∧ next_ok rest2 then
      let after_ws := rest2.dropWhile is_rust_whitespace
      match after_ws with
      | '(' :: _ =>
        match find_matching after_ws '(' ')' with
        | some (consumedP, restP) =>
          let subject := rust_trim (String.mk (consumedP.drop 1))
          let after_ws2 := restP.dropWhile is_rust_whitespace
          match after_ws2 with
          | '\x7b' :: _ =>
            match find_matching after_ws2 '\x7b' '\x7d' with
            | some (consumedB, restB) =>
              let body := String.mk (consumedB.drop 1)
              match build_match_expr subject body mid with
              | some rewritten =>
                rewritten.data ++ rmb_go fuel restB (some '\x7d') (mid + 1)
              | none => fallback
            | none => fallback
          | _ => fallback
        | none => fallback
      | _ => fallback
    else fallback
  | fuel + 1, c :: rest, _, mid => c :: rmb_go fuel rest (some c) mid

/-- `rewrite_match_blocks` from lib.rs. -/
def rewrite_match_blocks (source : String) : String :=
  String.mk (rmb_go (source.data.length + 1) source.data none 0)

/-- `preprocess` from lib.rs. -/
def preprocess (source : String) : String :=
  let s := rewrite_word_boolean_ops (rewrite_val_declarations
    (rewrite_implements_blocks (rewrite_match_blocks source)))
  let s := String.mk (replace_struct_interface s.data)
  String.intercalate "\n" ((rust_lines s).map wait_line_rewrite)

/-! ### Functions, module assembly and pipeline
(transpiler/functions.rs, transpiler/mod.rs, lib.rs)

The reduced module model carries import declarations and (sync or
async) function declarations; interface, enum, `implements`-class and
global-const items, whose lowering feeds the other output sections, and
the `_ => \x7b\x7d` arm are collapsed into `otherItem` (ignored by the
walker like the wildcard arm). -/

/-- A function parameter with an identifier pattern. -/
structure Param where
  name : String
  type_ann : Option TsType

/-- Reduced `FnDecl`. -/
structure FnDecl where
  name : String
  params : List Param
  return_type : Option TsType
  is_async : Bool
  body : List Stmt

inductive ModuleItem where
  | importD (imp : ImportDecl)
  | fnD (f : FnDecl)
  | otherItem

/-- `transpile_params` from transpiler/functions.rs (renders the
parameter list and seeds the scope; a missing annotation defaults to
`i32`). -/
def transpile_params (params : List Param) (scope : Scope) : String × Scope :=
  match params with
  | [] => ("", scope)
  | _ =>
    let step := params.foldl (fun (acc : List String × Scope) p =>
      let type_str := (p.type_ann.map transpile_type_annotation).getD "i32"
      (acc.1 ++ [p.name ++ ": " ++ type_str], acc.2.insert p.name type_str))
      ([], scope)
    (String.intercalate ", " step.1, step.2)

/-- `transpile_return_type` from transpiler/functions.rs. -/
def transpile_return_type (return_type : Option TsType) : String :=
  match return_type with
  | some t => transpile_type t
  | none => "()"

/-- `transpile_block_stmt` from transpiler/statements.rs: each
statement rendered behind the indent, joined by newlines, threading the
scope. -/
def transpile_block_stmt (stmts : List Stmt) (indent : String) (scope : Scope) :
    String × Scope :=
  let step := stmts.foldl (fun (acc : List String × Scope) s =>
    let (stmt_str, scope) := transpile_statement s acc.2
    (acc.1 ++ [indent ++ stmt_str], scope)) ([], scope)
  (String.intercalate "\n" step.1, step.2)

/-- `transpile_function` from transpiler/functions.rs. -/
def transpile_function (f : FnDecl) (module_aliases : List String) : String :=
  let scope := base_scope module_aliases
  let (params, scope) := transpile_params f.params scope
  let return_type := transpile_return_type f.return_type
  if f.is_async then
    let (body, _) := transpile_block_stmt f.body "        " scope
    "fn " ++ f.name ++ "(" ++ params ++ ") -> std::thread::JoinHandle<"
      ++ return_type ++ "> \x7b\n    std::thread::spawn(move || \x7b\n"
      ++ body ++ "\n    \x7d)\n\x7d"
  else
    let (body, _) := transpile_block_stmt f.body "    " scope
    "fn " ++ f.name ++ "(" ++ params ++ ") -> " ++ return_type ++ " \x7b\n"
      ++ body ++ "\n\x7d"

/-- Substring occurrence on character lists. -/
def list_is_infix_of (sub : List Char) : List Char → Bool
  | [] => sub.isEmpty
  | c :: rest => sub.isPrefixOf (c :: rest) || list_is_infix_of sub rest

/-- Rust `String::contains` (substring). -/
def str_contains (s sub : String) : Bool := list_is_infix_of sub.data s.data

/-- The walker state of `transpile_to_rust`: collected `use`
statements, function code, required crates and module aliases (the
other sections are empty in the reduced model). -/
structure WalkState where
  use_statements : List String
  function_code : List String
  required_crates : List String
  module_aliases : List String

def WalkState.initial : WalkState := ⟨[], [], [], []⟩

/-- One step of the module walk of `transpile_to_rust`. -/
def walk_item (st : WalkState) (item : ModuleItem) : Except String WalkState :=
  match item with
  | .importD imp =>
    match transpile_import imp with
    | .error e => .error e
    | .ok info =>
      let uses := info.use_statements.foldl
        (fun acc stmt => if acc.contains stmt then acc else acc ++ [stmt])
        st.use_statements
      let crates := info.required_crates.foldl
        (fun acc name => if acc.contains name then acc else acc ++ [name])
        st.required_crates
      let aliases := info.module_aliases.foldl
        (fun acc a => if acc.contains a then acc else acc ++ [a])
        st.module_aliases
      .ok ⟨uses, st.function_code, crates, aliases⟩
  | .fnD f =>
    .ok ⟨st.use_statements,
      st.function_code ++ [transpile_function f st.module_aliases],
      st.required_crates, st.module_aliases⟩
  | .otherItem => .ok st

def walk_items : List ModuleItem → WalkState → Except String WalkState
  | [], st => .ok st
  | item :: rest, st =>
    match walk_item st item with
    | .error e => .error e
    | .ok st => walk_items rest st

/-- `Vec::insert(0, x)` / `insert(1, x)` used by the auto-injection
(the index-1 insert only runs right after an index-0 insert, so the
list is never too short). -/
def insert_at0 (x : String) (l : List String) : List String := x :: l

def insert_at1 (x : String) (l : List String) : List String :=
  match l with
  | h :: t => h :: x :: t
  | [] => [x]

/-- The four auto-injection passes of `transpile_to_rust`, driven by a
textual scan of the assembled output. -/
def auto_inject (use_statements : List String) (all_code : String) : List String :=
  let use_statements :=
    if str_contains all_code "Rc<RefCell<" then
      let use_statements :=
        if use_statements.contains "use std::rc::Rc;" then use_statements
        else insert_at0 "use std::rc::Rc;" use_statements
      if use_statements.contains "use std::cell::RefCell;" then use_statements
      else insert_at1 "use std::cell::RefCell;" use_statements
    else use_statements
  let use_statements :=
    if str_contains all_code "Arc<Mutex<" then
      if use_statements.contains "use std::sync::\x7bArc, Mutex\x7d;" then use_statements
      else insert_at0 "use std::sync::\x7bArc, Mutex\x7d;" use_statements
    else use_statements
  let use_statements :=
    if str_contains all_code "HashMap<" ∨ str_contains all_code "HashMap::new()" then
      if use_statements.contains "use std::collections::HashMap;" then use_statements
      else insert_at0 "use std::collections::HashMap;" use_statements
    else use_statements
  if str_contains all_code "HashSet<" ∨ str_contains all_code "HashSet::new()" then
    if use_statements.contains "use std::collections::HashSet;" then use_statements
    else insert_at0 "use std::collections::HashSet;" use_statements
  else use_statements

/-- `TranspileOutput` from transpiler/mod.rs. -/
structure TranspileOutput where
  rust_code : String
  required_crates : List String
  deriving DecidableEq, Repr

/-- The section assembly of `transpile_to_rust` (type declarations,
impl blocks and global consts are empty in the reduced model). -/
def assemble_rust_code (use_statements function_code : List String) : String :=
  let code := String.join (use_statements.map (fun stmt => stmt ++ "\n"))
  let code := if use_statements.isEmpty then code else code ++ "\n"
  let code := code ++ String.join (function_code.map (fun f => f ++ "\n\n"))
  rust_trim code

/-- `transpile_to_rust` from transpiler/mod.rs over the reduced module
model. -/
def transpile_to_rust (module : List ModuleItem) : Except String TranspileOutput :=
  match walk_items module WalkState.initial with
  | .error e => .error e
  | .ok st =>
    let all_code := String.join (st.use_statements ++ st.function_code)
    let final_uses := auto_inject st.use_statements all_code
    .ok ⟨assemble_rust_code final_uses st.function_code, st.required_crates⟩

/-- `compile_full` from lib.rs, with the external SWC parser abstracted
as a function argument and the process-wide warning sink made an
explicit state. -/
def compile_full_st (parse : String → Except String (List ModuleItem))
    (source : String) (sink : List String) :
    Except String TranspileOutput × List String :=
  match reject_unsupported_while source with
  | .error e => (.error e, sink)
  | .ok _ =>
    let sink :=
      if contains_identifier_in_code source "number" then
        sink ++ [deprecation_warning]
      else sink
    match parse (preprocess source) with
    | .error e => (.error e, sink)
    | .ok m => (transpile_to_rust m, sink)

/-! ### Crate-closure predicate (claim C9)

`use_line_path` and `violates_crate_closure` formalise the claim's
wording ("every line of the output of the form `use <path>;` whose path
contains `::` and whose top segment is not `std`, `core` or `alloc`
has that top segment present in `required_crates`"); they are the
specification side against which the assembled output is compared. -/

/-- Whether a string ends with the given suffix. -/
def str_ends_with (s suffix : String) : Bool :=
  suffix.data.reverse.isPrefixOf s.data.reverse

/-- The `<path>` of a line of the form `use <path>;`. -/
def use_line_path (line : String) : Option String :=
  if "use ".data.isPrefixOf line.data ∧ str_ends_with line ";" then
    some (String.mk ((line.data.drop 4).dropLast))
  else none

/-- A line that breaks the crate-set closure: a `use` line whose path
contains `::`, whose top segment is not `std`/`core`/`alloc`, and whose
top segment is absent from the required crates. -/
def violates_crate_closure (crates : List String) (line : String) : Bool :=
  match use_line_path line with
  | some path =>
    str_contains path "::" &&
    (let top := String.mk (top_level_segment path.data)
     !(top = "std" || top = "core" || top = "alloc") && !(crates.contains top))
  | none => false

/-- Identifier-like name: no embedded newline or colon. -/
def wf_name (s : String) : Bool := s.data.all (fun c => !(c = '\n') && !(c = ':'))

def wf_specifier : ImportSpecifier → Bool
  | .namedS l => wf_name l
  | .defaultS l => wf_name l
  | .namespaceS l => wf_name l

/-- Well-formed import: no newline in the source string, the source
string does not end in a lone colon, and all specifier names are
identifier-like. -/
def wf_import (imp : ImportDecl) : Bool :=
  imp.src.data.all (fun c => !(c = '\n')) &&
  !(head_is ':' imp.src.data.reverse) &&
  imp.specifiers.all wf_specifier

def wf_module_item : ModuleItem → Bool
  | .importD imp => wf_import imp
  | _ => true

end Trusty

namespace TrustyClaims

open Trusty

/-- Helper: a type string satisfying `is_pointer` is not the
module-alias marker. -/
theorem pointer_not_alias {ty : String} (h : is_pointer ty = true) :
    is_module_alias_binding ty = false := by
  unfold is_module_alias_binding
  by_contra hne
  simp only [decide_eq_false_iff_not, Decidable.not_not] at hne
  subst hne
  exact absurd h (by decide)

/-- Helper: a type string satisfying `is_threaded` is not the
module-alias marker. -/
theorem threaded_not_alias {ty : String} (h : is_threaded ty = true) :
    is_module_alias_binding ty = false := by
  unfold is_module_alias_binding
  by_contra hne
  simp only [decide_eq_false_iff_not, Decidable.not_not] at hne
  subst hne
  exact absurd h (by decide)

/-- Helper: no type string is simultaneously a `Pointer` and a
`Threaded` lowering. -/
theorem pointer_threaded_disjoint (ty : String)
    (h1 : is_pointer ty = true) (h2 : is_threaded ty = true) : False := by
  simp only [is_pointer, is_threaded, str_starts_with] at h1 h2
  cases hd : ty.data with
  | nil => rw [hd] at h1; exact absurd h1 (by decide)
  | cons c t =>
    rw [hd] at h1 h2
    simp only [List.isPrefixOf, Bool.and_eq_true, beq_iff_eq] at h1 h2
    obtain ⟨hc1, -⟩ := h1
    obtain ⟨hc2, -⟩ := h2
    subst hc1
    exact absurd hc2 (by decide)

/-- **C1 (counterexample).** The claim fails as stated on two inputs:
a `Pointer`-typed identifier read at property `length` lowers to
`m.borrow().len()` rather than `m.borrow().length`, and an identifier
bound as a module alias (an "other scope type") lowers to `a::f` rather
than plain `a.f`. -/
theorem shared_cell_dispatch_counterexample :
    transpile_member_access (.ident "m") (.propIdent "length")
        [("m", "Rc<RefCell<Vec<i32>>>")] = "m.borrow().len()" ∧
    "m.borrow().len()" ≠ "m.borrow().length" ∧
    is_pointer "Rc<RefCell<Vec<i32>>>" = true ∧
    transpile_member_access (.ident "a") (.propIdent "f")
        [("a", MODULE_ALIAS_MARKER)] = "a::f" ∧
    "a::f" ≠ "a.f" := by
  refine ⟨by decide, by decide, by decide, by decide, by decide⟩

/-- **C1 (amended).** For an identifier `x` bound in scope to type `ty`
and a property `f ≠ "length"`: if `ty` is a `Pointer` lowering
(`Rc<RefCell<…`), the read lowers to `x.borrow().f` and the write to
`x.borrow_mut().f = v`; if a `Threaded` lowering (`Arc<Mutex<…`), to
`x.lock().unwrap().f` and `x.lock().unwrap().f = v`; if `ty` is neither
a shared cell nor the module-alias marker, the read lowers to plain
`x.f`; writes lower to plain `x.f = v` for every non-shared-cell `ty`
(including the marker).  Reads at `f = "length"` and module-alias
receivers follow their own dedicated rules. -/
theorem shared_cell_dispatch_amended (x f ty : String) (scope : Scope) (v : Expr)
    (hty : scope.get x = some ty) (hf : f ≠ "length") :
    (is_pointer ty = true →
      transpile_member_access (.ident x) (.propIdent f) scope
          = x ++ ".borrow()." ++ f ∧
      transpile_assign (.simpleMember (.ident x) (.propIdent f)) v scope
          = x ++ ".borrow_mut()." ++ f ++ " = " ++ transpile_expression v scope) ∧
    (is_threaded ty = true →
      transpile_member_access (.ident x) (.propIdent f) scope
          = x ++ ".lock().unwrap()." ++ f ∧
      transpile_assign (.simpleMember (.ident x) (.propIdent f)) v scope
          = x ++ ".lock().unwrap()." ++ f ++ " = " ++ transpile_expression v scope) ∧
    (is_pointer ty = false → is_threaded ty = false →
      is_module_alias_binding ty = false →
      transpile_member_access (.ident x) (.propIdent f) scope
          = x ++ "." ++ f) ∧
    (is_pointer ty = false → is_threaded ty = false →
      transpile_assign (.simpleMember (.ident x) (.propIdent f)) v scope
          = x ++ "." ++ f ++ " = " ++ transpile_expression v scope) := by
  refine ⟨fun hp => ?_, fun ht => ?_, fun hp ht hm => ?_, fun hp ht => ?_⟩
  · have hm := pointer_not_alias hp
    have ht : is_threaded ty = false := by
      by_contra hc
      rw [Bool.not_eq_false] at hc
      exact pointer_threaded_disjoint ty hp hc
    constructor
    · simp [transpile_member_access, transpile_expression, ident_name, hty, hm, hf, hp]
    · simp [transpile_assign, transpile_expression, ident_name, hty, hp]
  · have hm := threaded_not_alias ht
    have hp : is_pointer ty = false := by
      by_contra hc
      rw [Bool.not_eq_false] at hc
      exact pointer_threaded_disjoint ty hc ht
    constructor
    · simp [transpile_member_access, transpile_expression, ident_name, hty, hm, hf, hp, ht]
    · simp [transpile_assign, transpile_expression, ident_name, hty, hp, ht]
  · simp [transpile_member_access, transpile_expression, ident_name, hty, hm, hf, hp, ht]
  · simp [transpile_assign, transpile_expression, ident_name, hty, hp, ht]

/-- **C1 (witness).** The amended theorem applied to
`p : Pointer<Point>`, property `name`, write value `"x"`. -/
theorem shared_cell_dispatch_amended_witness :
    transpile_member_access (.ident "p") (.propIdent "name")
        [("p", "Rc<RefCell<Point>>")] = "p.borrow().name" ∧
    transpile_assign (.simpleMember (.ident "p") (.propIdent "name")) (.strLit "x")
        [("p", "Rc<RefCell<Point>>")]
        = "p.borrow_mut().name = \"x\".to_string()" := by
  have h := (shared_cell_dispatch_amended "p" "name" "Rc<RefCell<Point>>"
    [("p", "Rc<RefCell<Point>>")] (.strLit "x") (by decide) (by decide)).1 (by decide)
  exact ⟨h.1, by rw [h.2]; decide⟩

/-- **C4.** The claim fails for the `int*` aliases: `transpile_type`
has no arm for `int8`/`int16`/`int32`/`int64`/`int`, so those names
fall to the custom-type pass-through arm and are emitted verbatim
(`int32` lowers to `int32`, not `i32`), while the `number*` family and
`number` lower as documented.  The crate's own tests
(`test_compile_val_var_and_global_const`, `test_compile_mod_and_exp`)
and spec scenario E1 expect `int32` to lower to `i32`. -/
theorem transpile_type_int32_passthrough :
    transpile_type (.typeRef "int32" []) = "int32" ∧
    transpile_type (.typeRef "int8" []) = "int8" ∧
    transpile_type (.typeRef "int16" []) = "int16" ∧
    transpile_type (.typeRef "int64" []) = "int64" ∧
    transpile_type (.typeRef "int" []) = "int" ∧
    transpile_type (.typeRef "number8" []) = "i8" ∧
    transpile_type (.typeRef "number16" []) = "i16" ∧
    transpile_type (.typeRef "number32" []) = "i32" ∧
    transpile_type (.typeRef "number64" []) = "i64" ∧
    transpile_type (.typeRef "number" []) = "i32" := by
  refine ⟨?_, ?_, ?_, ?_, ?_, ?_, ?_, ?_, ?_, ?_⟩ <;> rfl

/-- **C7.** Exponentiation lowering: with `Ty` the inferred Rust type
of the left operand, integer `Ty` lowers `a ** b` to
`(a as Ty).pow((b).max(0) as u32)`, float `Ty` to
`(a as Ty).powf(b as Ty)`, and an uninferrable type to
`(a as f64).powf(b as f64)`. -/
theorem exponentiation_lowering (l r : Expr) (scope : Scope) :
    (∀ ty, infer_rust_type l scope = some ty →
      ty ∈ (["i8", "i16", "i32", "i64", "u8", "u16", "u32", "u64",
             "usize", "isize"] : List String) →
      transpile_expression (.bin .exp l r) scope
        = "(" ++ transpile_expression l scope ++ " as " ++ ty ++ ").pow(("
            ++ transpile_expression r scope ++ ").max(0) as u32)") ∧
    (∀ ty, infer_rust_type l scope = some ty →
      ty ∈ (["f32", "f64"] : List String) →
      transpile_expression (.bin .exp l r) scope
        = "(" ++ transpile_expression l scope ++ " as " ++ ty ++ ").powf("
            ++ transpile_expression r scope ++ " as " ++ ty ++ ")") ∧
    (infer_rust_type l scope = none →
      transpile_expression (.bin .exp l r) scope
        = "(" ++ transpile_expression l scope ++ " as f64).powf("
            ++ transpile_expression r scope ++ " as f64)") := by
  have hexp : transpile_expression (.bin .exp l r) scope
      = transpile_exponentiation l (transpile_expression l scope)
          (transpile_expression r scope) scope := rfl
  refine ⟨fun ty hinf hmem => ?_, fun ty hinf hmem => ?_, fun hinf => ?_⟩
  · rw [hexp]
    unfold transpile_exponentiation
    rw [hinf]
    simp only [List.mem_cons, List.not_mem_nil, or_false] at hmem
    rcases hmem with rfl | rfl | rfl | rfl | rfl | rfl | rfl | rfl | rfl | rfl <;>
      simp [String.append_assoc]
  · rw [hexp]
    unfold transpile_exponentiation
    rw [hinf]
    simp only [List.mem_cons, List.not_mem_nil, or_false] at hmem
    rcases hmem with rfl | rfl <;> simp [String.append_assoc]
  · rw [hexp]
    unfold transpile_exponentiation
    rw [hinf]

/-- **C7 (witness).** `a ** 3` with `a : i32` in scope, and `x ** y`
with `x : f64`. -/
theorem exponentiation_lowering_witness :
    transpile_expression (.bin .exp (.ident "a") (.numLit 3)) [("a", "i32")]
      = "(a as i32).pow((3).max(0) as u32)" ∧
    transpile_expression (.bin .exp (.ident "x") (.ident "y"))
        [("x", "f64"), ("y", "f64")]
      = "(x as f64).powf(y as f64)" := by
  constructor
  · have h := (exponentiation_lowering (.ident "a") (.numLit 3) [("a", "i32")]).1
      "i32" (by decide) (by decide)
    rw [h]; decide
  · have h := (exponentiation_lowering (.ident "x") (.ident "y")
      [("x", "f64"), ("y", "f64")]).2.1 "f64" (by decide) (by decide)
    rw [h]; decide

/-- Helper: `Scope.get` is unchanged by inserting a different key. -/
theorem scope_get_insert_ne (s : Scope) (k v x : String) (h : k ≠ x) :
    (s.insert k v).get x = s.get x := by
  simp [Scope.insert, Scope.get, h]

/-- Helper: processing a declarator whose name differs from `x` leaves
`x`'s scope entry unchanged. -/
theorem var_declarator_preserves (binding : String) (d : VarDeclarator)
    (scope : Scope) (x : String) (h : d.name ≠ x) :
    ((transpile_var_declarator binding d scope).2).get x = scope.get x := by
  unfold transpile_var_declarator
  dsimp only
  repeat' split
  all_goals simp [Scope.insert, Scope.get, h]

/-- Helper: a declarator list not containing `x` preserves `x`'s scope
entry. -/
theorem var_declarators_preserve (binding : String) (ds : List VarDeclarator)
    (scope : Scope) (x : String) (h : ∀ d ∈ ds, d.name ≠ x) :
    ((transpile_var_declarators binding ds scope).2).get x = scope.get x := by
  induction ds generalizing scope with
  | nil => rfl
  | cons d ds ih =>
    have hd : d.name ≠ x := h d (List.mem_cons_self d ds)
    have hds : ∀ d' ∈ ds, d'.name ≠ x := fun d' hm => h d' (List.mem_cons_of_mem d hm)
    simp only [transpile_var_declarators]
    rw [ih _ hds, var_declarator_preserves _ _ _ _ hd]

/-- **C10 (counterexample).** A `let` declaration with a type
annotation overwrites a module-alias marker of the same name: after
processing `let m: number32 = 5;` in a scope seeded with alias `m`,
the scope maps `m` to `i32`, the marker is gone, and `m.f` lowers to
`m.f` instead of `m::f`. -/
theorem alias_overwrite_counterexample :
    (base_scope ["m"]).get "m" = some MODULE_ALIAS_MARKER ∧
    ((transpile_statement
        (.declVar .letK [⟨"m", some (.typeRef "number32" []), some (.numLit 5)⟩])
        (base_scope ["m"])).2).get "m" = some "i32" ∧
    is_module_alias_binding "i32" = false ∧
    transpile_member_access (.ident "m") (.propIdent "f")
        ((transpile_statement
          (.declVar .letK [⟨"m", some (.typeRef "number32" []), some (.numLit 5)⟩])
          (base_scope ["m"])).2) = "m.f" := by
  refine ⟨by decide, by decide, by decide, by decide⟩

/-- **C10 (amended).** A module-alias marker survives the processing of
a statement only as long as no declarator of that statement binds the
same name: if `scope x` holds the marker and `x` is not among the
statement's declarator names, the marker is intact afterwards (and
`x.member` still lowers to `x::member`); a declarator named `x` with a
recorded type overwrites the marker. -/
theorem alias_preserved_off_declared (stmt : Stmt) (scope : Scope) (x : String)
    (hx : scope.get x = some MODULE_ALIAS_MARKER)
    (hnd : x ∉ declared_names stmt) :
    ((transpile_statement stmt scope).2).get x = some MODULE_ALIAS_MARKER ∧
    ∀ f, transpile_member_access (.ident x) (.propIdent f)
        ((transpile_statement stmt scope).2) = x ++ "::" ++ f := by
  have hkeep : ((transpile_statement stmt scope).2).get x
      = some MODULE_ALIAS_MARKER := by
    cases stmt with
    | declVar kind decls =>
      have h : ∀ d ∈ decls, d.name ≠ x := by
        intro d hm he
        exact hnd (by simpa [declared_names, he] using List.mem_map_of_mem (·.name) hm)
      simp only [transpile_statement]
      rw [var_declarators_preserve _ _ _ _ h]
      exact hx
    | returnS arg => cases arg <;> simpa [transpile_statement] using hx
    | exprS e => simpa [transpile_statement] using hx
    | breakS => simpa [transpile_statement] using hx
    | continueS => simpa [transpile_statement] using hx
    | otherStmt => simpa [transpile_statement] using hx
  refine ⟨hkeep, fun f => ?_⟩
  simp [transpile_member_access, transpile_expression, ident_name, hkeep,
    is_module_alias_binding]

/-- **C10 (amended, witness).** An expression statement leaves the
alias `m` intact and `m.PI` still lowers to `m::PI`. -/
theorem alias_preserved_off_declared_witness :
    ((transpile_statement (.exprS (.numLit 1)) (base_scope ["m"])).2).get "m"
        = some MODULE_ALIAS_MARKER ∧
    transpile_member_access (.ident "m") (.propIdent "PI")
        ((transpile_statement (.exprS (.numLit 1)) (base_scope ["m"])).2)
        = "m::PI" := by
  have h := alias_preserved_off_declared (.exprS (.numLit 1)) (base_scope ["m"]) "m"
    (by decide) (by simp [declared_names])
  exact ⟨h.1, h.2 "PI"⟩

/-- **C5.** `math`, `rand`, `time` and `json` resolve to fixed shims,
but `"http"` has no arm in `stdlib::resolve` (even though
`stdlib/http.rs` ships a complete shim and declares its crates), so a
`trusty:http` import falls through to the unknown-module path: a
placeholder comment, no `use` statements from the shim, and no crate
requirements. -/
theorem stdlib_http_missing :
    (stdlib_resolve "math").isSome = true ∧
    (stdlib_resolve "rand").isSome = true ∧
    (stdlib_resolve "time").isSome = true ∧
    (stdlib_resolve "json").isSome = true ∧
    stdlib_resolve "http" = none ∧
    transpile_import ⟨"trusty:http", [.namedS "fetch"]⟩
      = .ok ⟨["// trusty:http — module not yet implemented"], [], []⟩ ∧
    transpile_import ⟨"trusty:rand", [.namedS "random"]⟩
      = .ok ⟨rand_use_statements, ["rand"], []⟩ := by
  refine ⟨rfl, rfl, rfl, rfl, rfl, rfl, rfl⟩

/-- **C2 (counterexample).** The claim's textual condition and the
code's scanner disagree, because the scanner neither checks nor clears
its pending identifier when it enters a string literal. `x"s"while`
contains the whole-word `while` outside any string or comment, so the
claim demands rejection, yet no rejection fires: the pending `x`
survives the literal and the accumulated identifier is `xwhile`.
`whi"while"le` contains `while` only inside a double-quoted literal,
so the claim forbids rejection, yet the rejection fires: `whi` before
the literal and `le` after it concatenate to `while`. -/
theorem while_rejection_counterexample :
    bare_while_in_code "x\"s\"while" = true ∧
    contains_identifier_in_code "x\"s\"while" "while" = false ∧
    reject_unsupported_while "x\"s\"while" = .ok () ∧
    bare_while_in_code "whi\"while\"le" = false ∧
    contains_identifier_in_code "whi\"while\"le" "while" = true ∧
    reject_unsupported_while "whi\"while\"le" = .error while_error_message := by
  refine ⟨by decide, by decide, rfl, by decide, by decide, rfl⟩

/-- **C2 (amended).** The rejection is governed by the code's
identifier-accumulating scanner, not by the claim's textual condition:
compilation fails before the parser is consulted — for every parser and
sink — with the fixed message containing `while` and `not supported`
exactly when `contains_identifier_in_code` reports a bare `while`; that
scan tracks string and comment contexts but keeps its pending
identifier across literals, so identifier fragments adjacent to the
two ends of a literal concatenate, and its verdict differs from the
textual condition on such sources (the counterexample); when the
scanner does not fire, the source is not rejected. -/
theorem while_rejection (s : String) :
    (contains_identifier_in_code s "while" = true →
      reject_unsupported_while s = .error while_error_message ∧
      (∀ parse sink, compile_full_st parse s sink = (.error while_error_message, sink)) ∧
      str_contains while_error_message "while" = true ∧
      str_contains while_error_message "not supported" = true) ∧
    (contains_identifier_in_code s "while" = false →
      reject_unsupported_while s = .ok ()) := by
  constructor
  · intro h
    refine ⟨?_, fun parse sink => ?_, by decide, by decide⟩
    · simp [reject_unsupported_while, h]
    · simp [compile_full_st, reject_unsupported_while, h]
  · intro h
    simp [reject_unsupported_while, h]

/-- **C2 (witness).** `while (i < 3) \x7b \x7d` is rejected by every
parser; a source with `while` only inside a string and a comment is
not. -/
theorem while_rejection_witness :
    (compile_full_st (fun _ => .ok []) "while (i < 3) \x7b \x7d" []
      = (.error while_error_message, [])) ∧
    reject_unsupported_while "val s = \"while\"; // while" = .ok () := by
  constructor
  · exact ((while_rejection "while (i < 3) \x7b \x7d").1 (by decide)).2.1
      (fun _ => .ok []) []
  · exact (while_rejection "val s = \"while\"; // while").2 (by decide)

/-- **C8.** The compilation result (generated code and required
crates) is a pure function of the source and the parser: it is
independent of the warning-sink state, so the deprecation-warning side
effect never influences it, and two invocations agree byte for
byte. -/
theorem compile_determinism (parse : String → Except String (List ModuleItem))
    (s : String) (sink1 sink2 : List String) :
    (compile_full_st parse s sink1).1 = (compile_full_st parse s sink2).1 ∧
    (∀ out, (compile_full_st parse s sink1).1 = .ok out →
      (compile_full_st parse s sink2).1 = .ok out) := by
  have h : (compile_full_st parse s sink1).1 = (compile_full_st parse s sink2).1 := by
    unfold compile_full_st
    cases hr : reject_unsupported_while s
    · simp
    · cases hp : parse (preprocess s) <;> simp
  exact ⟨h, fun out h1 => h ▸ h1⟩

/-- **C8 (witness).** The determinism theorem applied to a trivial
parser, a one-function source, and two different sink states. -/
theorem compile_determinism_witness :
    ((compile_full_st (fun _ => .ok []) "val x = 1;" []).1
      = (compile_full_st (fun _ => .ok []) "val x = 1;" ["old warning"]).1) := by
  exact (compile_determinism (fun _ => .ok []) "val x = 1;" [] ["old warning"]).1

/-- **C3 (counterexample).** Three preprocessor substitutions do
modify bytes inside string-literal or comment contexts:
`struct `→`interface ` fires inside a double-quoted literal, the
`val `→`let ` line rewrite fires inside a block comment, and the
match-block rewrite fires on match-shaped text inside a double-quoted
literal. -/
theorem preprocess_context_counterexample :
    preprocess "x = \"a struct b\";" = "x = \"a interface b\";" ∧
    preprocess "x = \"a struct b\";" ≠ "x = \"a struct b\";" ∧
    preprocess "/*\nval x = 1;\n*/" = "/*\nlet x = 1;\n*/" ∧
    preprocess "x = \"match (a) \x7b 1 => 2 \x7d\";"
      = "x = \"(\x7b let __trust_match_0 = a; if __trust_match_0 == (1) \x7b 2 \x7d else \x7b panic!(\"non-exhaustive match\") \x7d \x7d)\";" := by
  refine ⟨by decide, by decide, by decide, by decide⟩

/-- **C3 (amended).** Only the word-operator rewriter
(`and`→`&&`, `or`→`||`, `loop(`→`while(`) is context-protected: every
character it consumes while in a string or comment mode is emitted
verbatim (so those three substitutions never modify a byte inside a
single-, double- or template-quoted literal or a line/block comment).
The `struct `→`interface ` replacement, the `val `/`wait ` line
rewrites and the match-block rewrite carry no such protection and can
modify bytes inside string literals and comments. -/
theorem word_ops_protected_copy (fuel : Nat) (c : Char) (rest : List Char)
    (mode : WboMode) (prev : Option Char) (h : mode ≠ .normal) :
    ∃ consumed rest' mode' prev',
      c :: rest = consumed ++ rest' ∧ consumed ≠ [] ∧
      rwbo_go (fuel + 1) (c :: rest) mode prev
        = consumed ++ rwbo_go fuel rest' mode' prev' := by
  have hnil : ∀ (k : Nat) (m : WboMode) (p : Option Char), rwbo_go k [] m p = [] := by
    intro k m p
    cases k <;> simp [rwbo_go]
  cases mode with
  | normal => exact absurd rfl h
  | lineComment =>
    refine ⟨[c], rest, if c = '\n' then .normal else .lineComment, some c, rfl,
      by simp, ?_⟩
    simp [rwbo_go]
  | blockComment =>
    by_cases hc : c = '*'
    · cases rest with
      | nil =>
        exact ⟨[c], [], .blockComment, some c, rfl, by simp, by simp [rwbo_go, hc, hnil]⟩
      | cons n rest2 =>
        by_cases hn : n = '/'
        · exact ⟨[c, n], rest2, .normal, some n, rfl, by simp,
            by simp [rwbo_go, hc, hn]⟩
        · exact ⟨[c], n :: rest2, .blockComment, some c, rfl, by simp,
            by simp [rwbo_go, hc, hn]⟩
    · exact ⟨[c], rest, .blockComment, some c, rfl, by simp, by simp [rwbo_go, hc]⟩
  | singleString =>
    by_cases hc : c = '\\'
    · cases rest with
      | nil =>
        exact ⟨[c], [], .singleString, some c, rfl, by simp, by simp [rwbo_go, hc, hnil]⟩
      | cons n rest2 =>
        exact ⟨[c, n], rest2, .singleString, some n, rfl, by simp,
          by simp [rwbo_go, hc]⟩
    · by_cases hq : c = '\''
      · exact ⟨[c], rest, .normal, some c, rfl, by simp, by simp [rwbo_go, hc, hq]⟩
      · exact ⟨[c], rest, .singleString, some c, rfl, by simp, by simp [rwbo_go, hc, hq]⟩
  | doubleString =>
    by_cases hc : c = '\\'
    · cases rest with
      | nil =>
        exact ⟨[c], [], .doubleString, some c, rfl, by simp, by simp [rwbo_go, hc, hnil]⟩
      | cons n rest2 =>
        exact ⟨[c, n], rest2, .doubleString, some n, rfl, by simp,
          by simp [rwbo_go, hc]⟩
    · by_cases hq : c = '"'
      · exact ⟨[c], rest, .normal, some c, rfl, by simp, by simp [rwbo_go, hc, hq]⟩
      · exact ⟨[c], rest, .doubleString, some c, rfl, by simp, by simp [rwbo_go, hc, hq]⟩
  | templateString =>
    by_cases hc : c = '\\'
    · cases rest with
      | nil =>
        exact ⟨[c], [], .templateString, some c, rfl, by simp,
          by simp [rwbo_go, hc, hnil]⟩
      | cons n rest2 =>
        exact ⟨[c, n], rest2, .templateString, some n, rfl, by simp,
          by simp [rwbo_go, hc]⟩
    · by_cases hq : c = '`'
      · exact ⟨[c], rest, .normal, some c, rfl, by simp, by simp [rwbo_go, hc, hq]⟩
      · exact ⟨[c], rest, .templateString, some c, rfl, by simp,
          by simp [rwbo_go, hc, hq]⟩

/-- **C3 (amended, witness).** The copy property applied inside a
double-quoted string. -/
theorem word_ops_protected_copy_witness :
    WboMode.doubleString ≠ WboMode.normal ∧
    (∃ consumed rest' mode' prev',
      ('a' :: "nd b".data) = consumed ++ rest' ∧ consumed ≠ [] ∧
      rwbo_go 8 ('a' :: "nd b".data) .doubleString none
        = consumed ++ rwbo_go 7 rest' mode' prev') :=
  ⟨by decide, word_ops_protected_copy 7 'a' "nd b".data .doubleString none (by decide)⟩

/-- **C6.** Match-arm lowering: a non-default arm `P => R` contributes
the condition `__trust_match_<id> == (P)` — or
`[…].contains(&__trust_match_<id>)` when `P` is a bracketed list — a
`default` arm sets the final branch, the assembled expression is the
`(\x7b let __trust_match_<id> = subject; if … \x7d)` chain whose else
branch is exactly `panic!("non-exhaustive match")` when no default arm
is present, and successive rewritten matches receive successive
indices. -/
theorem match_block_lowering :
    (∀ (mid : Nat) (arm : String) (rest : List String)
        (conds : List (String × String)) (dflt : Option String) (b a : String),
      find_top_level_arrow_split arm = some (b, a) →
      rust_trim b ≠ "" → rust_trim a ≠ "" → rust_trim b ≠ "default" →
      ¬(head_is '[' (rust_trim b).data = true
        ∧ head_is ']' (rust_trim b).data.reverse = true) →
      collect_arms mid (arm :: rest) conds dflt
        = collect_arms mid rest
            (conds ++ [("__trust_match_" ++ toString mid ++ " == (" ++ rust_trim b ++ ")",
              rust_trim a)]) dflt) ∧
    (∀ (mid : Nat) (arm : String) (rest : List String)
        (conds : List (String × String)) (dflt : Option String) (b a : String),
      find_top_level_arrow_split arm = some (b, a) →
      rust_trim b ≠ "" → rust_trim a ≠ "" → rust_trim b ≠ "default" →
      head_is '[' (rust_trim b).data = true →
      head_is ']' (rust_trim b).data.reverse = true →
      collect_arms mid (arm :: rest) conds dflt
        = collect_arms mid rest
            (conds ++ [("[" ++ rust_trim (String.mk (((rust_trim b).data.drop 1).dropLast))
              ++ "].contains(&__trust_match_" ++ toString mid ++ ")", rust_trim a)]) dflt) ∧
    (∀ (mid : Nat) (arm : String) (rest : List String)
        (conds : List (String × String)) (dflt : Option String) (b a : String),
      find_top_level_arrow_split arm = some (b, a) →
      rust_trim b = "default" → rust_trim a ≠ "" →
      collect_arms mid (arm :: rest) conds dflt
        = collect_arms mid rest conds (some (rust_trim a))) ∧
    (∀ (subject body : String) (mid : Nat) (conds : List (String × String))
        (dflt : Option String),
      split_top_level_csv body ≠ [] →
      collect_arms mid (split_top_level_csv body) [] none = some (conds, dflt) →
      conds ≠ [] →
      build_match_expr subject body mid
        = some ("(\x7b let __trust_match_" ++ toString mid ++ " = " ++ subject ++ "; "
            ++ if_chain_go true conds
            ++ (match dflt with
                | some d => "else \x7b " ++ d ++ " \x7d "
                | none => "else \x7b panic!(\"non-exhaustive match\") \x7d ")
            ++ "\x7d)")) ∧
    rewrite_match_blocks "a = match (x) \x7b 1 => 2 \x7d; b = match (y) \x7b 3 => 4 \x7d;"
      = ("a = (\x7b let __trust_match_0 = x; if __trust_match_0 == (1) \x7b 2 \x7d "
          ++ "else \x7b panic!(\"non-exhaustive match\") \x7d \x7d); "
          ++ "b = (\x7b let __trust_match_1 = y; if __trust_match_1 == (3) \x7b 4 \x7d "
          ++ "else \x7b panic!(\"non-exhaustive match\") \x7d \x7d);") := by
  refine ⟨?_, ?_, ?_, ?_, by decide⟩
  · intro mid arm rest conds dflt b a harrow hb ha hdef hbr
    simp only [collect_arms, harrow]
    rw [if_neg (by simp [hb, ha]), if_neg hdef, if_neg hbr]
  · intro mid arm rest conds dflt b a harrow hb ha hdef h1 h2
    simp only [collect_arms, harrow]
    rw [if_neg (by simp [hb, ha]), if_neg hdef, if_pos ⟨h1, h2⟩]
  · intro mid arm rest conds dflt b a harrow hdef ha
    simp only [collect_arms, harrow]
    rw [if_neg (by simp [hdef, ha]), if_pos hdef]
  · intro subject body mid conds dflt hsplit hcollect hconds
    unfold build_match_expr
    rw [if_neg hsplit, hcollect]
    cases conds with
    | nil => exact absurd rfl hconds
    | cons c0 cs => cases dflt <;> rfl

/-- **C6 (witness).** The arm-lowering facts applied to the arms
`1 => 2`, `[2, 3] => small`, `default => other`, and the assembly
applied to a two-arm body. -/
theorem match_block_lowering_witness :
    collect_arms 0 ["1 => 2"] [] none
      = collect_arms 0 [] [("__trust_match_0 == (1)", "2")] none ∧
    collect_arms 0 ["[2, 3] => small"] [] none
      = collect_arms 0 [] [("[2, 3].contains(&__trust_match_0)", "small")] none ∧
    collect_arms 0 ["default => other"] [] none = collect_arms 0 [] [] (some "other") ∧
    build_match_expr "x" "1 => 2" 0
      = some "(\x7b let __trust_match_0 = x; if __trust_match_0 == (1) \x7b 2 \x7d else \x7b panic!(\"non-exhaustive match\") \x7d \x7d)" := by
  have h1 := match_block_lowering.1 0 "1 => 2" [] [] none "1 " " 2"
    (by decide) (by decide) (by decide) (by decide) (by decide)
  have h2 := match_block_lowering.2.1 0 "[2, 3] => small" [] [] none "[2, 3] " " small"
    (by decide) (by decide) (by decide) (by decide) (by decide) (by decide)
  have h3 := match_block_lowering.2.2.1 0 "default => other" [] [] none "default " " other"
    (by decide) (by decide) (by decide)
  have h4 := match_block_lowering.2.2.2.1 "x" "1 => 2" 0
    [("__trust_match_0 == (1)", "2")] none (by decide) (by decide) (by decide)
  refine ⟨?_, ?_, ?_, ?_⟩
  · simpa using h1
  · simpa using h2
  · simpa using h3
  · rw [h4]; decide

/-- **C9 (counterexample).** Four ways the crate-set closure fails on
the output as a whole: a multi-line string literal in a function body
injects an arbitrary `use` line; an import source with an embedded
newline, an import source ending in a lone colon, and a default alias
containing `::` each produce a `use` line whose top segment is not in
`required_crates`. -/
theorem crate_closure_counterexample :
    (transpile_to_rust
        [.fnD ⟨"main", [], none, false,
          [.declVar .letK [⟨"s", none, some (.strLit "a\nuse evil::thing;\nb")⟩]]⟩]
      = .ok ⟨"fn main() -> () \x7b\n    let s = \"a\nuse evil::thing;\nb\".to_string();\n\x7d", []⟩) ∧
    (rust_lines "fn main() -> () \x7b\n    let s = \"a\nuse evil::thing;\nb\".to_string();\n\x7d").contains
      "use evil::thing;" = true ∧
    violates_crate_closure [] "use evil::thing;" = true ∧
    (transpile_to_rust [.importD ⟨"evil\nuse evil2::x;", []⟩]
      = .ok ⟨"use evil\nuse evil2::x;;", ["evil\nuse evil2"]⟩) ∧
    violates_crate_closure ["evil\nuse evil2"] "use evil2::x;;" = true ∧
    (transpile_to_rust [.importD ⟨"foo:", [.namedS "A"]⟩]
      = .ok ⟨"use foo:::A;", ["foo:"]⟩) ∧
    violates_crate_closure ["foo:"] "use foo:::A;" = true ∧
    (transpile_to_rust [.importD ⟨"pkg", [.defaultS "a::b"]⟩]
      = .ok ⟨"use pkg as a::b;", ["pkg"]⟩) ∧
    violates_crate_closure ["pkg"] "use pkg as a::b;" = true := by
  refine ⟨rfl, by decide, by decide, rfl, by decide, rfl, by decide, rfl, by decide⟩

/-! ### Supporting lemmas for the crate-closure analysis (claim C9) -/

set_option maxRecDepth 100000

theorem contains_iff_mem {l : List String} {x : String} :
    l.contains x = true ↔ x ∈ l := List.elem_iff

theorem violates_mono (crates crates' : List String) (line : String)
    (hsub : ∀ t, t ∈ crates → t ∈ crates')
    (h : violates_crate_closure crates line = false) :
    violates_crate_closure crates' line = false := by
  unfold violates_crate_closure at h ⊢
  cases hp : use_line_path line with
  | none => rfl
  | some path =>
    rw [hp] at h
    simp only [Bool.and_eq_false_iff] at h ⊢
    rcases h with h | h
    · exact Or.inl h
    · rcases h with h | h
      · exact Or.inr (Or.inl h)
      · refine Or.inr (Or.inr ?_)
        cases hcc : crates.contains (String.mk (top_level_segment path.data)) with
        | false => rw [hcc] at h; exact absurd h (by simp)
        | true =>
          have hm : crates'.contains (String.mk (top_level_segment path.data)) = true :=
            contains_iff_mem.mpr (hsub _ (contains_iff_mem.mp hcc))
          rw [hm]
          rfl

theorem mem_dedup_fold (xs acc : List String) (x : String)
    (h : x ∈ xs.foldl (fun acc y => if acc.contains y then acc else acc ++ [y]) acc) :
    x ∈ acc ∨ x ∈ xs := by
  induction xs generalizing acc with
  | nil => exact Or.inl h
  | cons y ys ih =>
    simp only [List.foldl_cons] at h
    rcases ih _ h with h2 | h2
    · by_cases hc : acc.contains y = true
      · rw [if_pos hc] at h2; exact Or.inl h2
      · rw [if_neg hc] at h2
        rcases List.mem_append.mp h2 with h3 | h3
        · exact Or.inl h3
        · exact Or.inr (by simp at h3; simp [h3])
    · exact Or.inr (List.mem_cons_of_mem _ h2)

theorem dedup_fold_mem_mono (xs acc : List String) (x : String) (h : x ∈ acc) :
    x ∈ xs.foldl (fun acc y => if acc.contains y then acc else acc ++ [y]) acc := by
  induction xs generalizing acc with
  | nil => exact h
  | cons y ys ih =>
    simp only [List.foldl_cons]
    apply ih
    by_cases hc : acc.contains y = true
    · rwa [if_pos hc]
    · rw [if_neg hc]
      exact List.mem_append.mpr (Or.inl h)

theorem dedup_fold_mem_of_mem (xs acc : List String) (x : String) (h : x ∈ xs) :
    x ∈ xs.foldl (fun acc y => if acc.contains y then acc else acc ++ [y]) acc := by
  induction xs generalizing acc with
  | nil => exact absurd h (by simp)
  | cons y ys ih =>
    simp only [List.foldl_cons]
    rcases List.mem_cons.mp h with rfl | h2
    · apply dedup_fold_mem_mono
      by_cases hc : acc.contains x = true
      · rw [if_pos hc]; exact contains_iff_mem.mp hc
      · rw [if_neg hc]; exact List.mem_append.mpr (Or.inr (by simp))
    · exact ih _ h2

theorem split_no_newline (l : List Char) (h : ∀ c ∈ l, c ≠ '\n') :
    split_on_newline l = [l] := by
  induction l with
  | nil => rfl
  | cons c rest ih =>
    have hc : c ≠ '\n' := h c (by simp)
    have hrest : ∀ c ∈ rest, c ≠ '\n' := fun c hm => h c (by simp [hm])
    simp [split_on_newline, ih hrest, hc]

theorem split_ne_nil (l : List Char) : split_on_newline l ≠ [] := by
  induction l with
  | nil => simp [split_on_newline]
  | cons c rest ih =>
    simp only [split_on_newline]
    by_cases hc : c = '\n'
    · simp [hc]
    · rw [if_neg hc]
      cases h : split_on_newline rest with
      | nil => exact absurd h ih
      | cons a t => simp

theorem strip_cr_of_last_ne (l : List Char) (h : l.getLast? ≠ some '\x0d') :
    strip_cr l = l := by
  unfold strip_cr
  cases hr : l.reverse with
  | nil => rfl
  | cons c t =>
    have hlast : l.getLast? = some c := by
      rw [← List.head?_reverse, hr]; rfl
    show (if c = '\x0d' then t.reverse else l) = l
    rw [if_neg (by rintro rfl; exact h hlast)]

theorem rust_lines_single (l : List Char) (hne : l ≠ [])
    (hnl : ∀ c ∈ l, c ≠ '\n') (hcr : l.getLast? ≠ some '\r') :
    rust_lines (String.mk l) = [String.mk l] := by
  unfold rust_lines
  show ((drop_last_empty (split_on_newline l)).map strip_cr).map String.mk = _
  rw [split_no_newline l hnl]
  have hd : drop_last_empty [l] = [l] := by
    unfold drop_last_empty
    rw [if_neg hne]
  rw [hd]
  simp [strip_cr_of_last_ne l hcr]

theorem split_append_newline (x y : List Char) (hy : ∀ c ∈ y, c ≠ '\n') :
    split_on_newline (x ++ '\n' :: y) = split_on_newline x ++ [y] := by
  induction x with
  | nil =>
    have h1 : split_on_newline ([] ++ '\n' :: y) = [] :: split_on_newline y := by
      simp [split_on_newline]
    rw [h1, split_no_newline y hy]
    rfl
  | cons c x' ih =>
    show split_on_newline (c :: (x' ++ '\n' :: y)) = _
    by_cases hc : c = '\n'
    · subst hc
      simp only [split_on_newline, ih]
      simp
    · simp only [split_on_newline, ih, if_neg hc]
      cases hsx : split_on_newline x' with
      | nil => exact absurd hsx (split_ne_nil x')
      | cons h t => simp

theorem drop_last_empty_append (A : List (List Char)) (y : List Char) (hy : y ≠ []) :
    drop_last_empty (A ++ [y]) = A ++ [y] := by
  induction A with
  | nil =>
    simp only [List.nil_append]
    unfold drop_last_empty
    rw [if_neg hy]
  | cons a A' ih =>
    cases hA : A' with
    | nil =>
      subst hA
      show drop_last_empty [a, y] = [a, y]
      show a :: drop_last_empty [y] = _
      unfold drop_last_empty
      rw [if_neg hy]
    | cons b A'' =>
      subst hA
      show drop_last_empty (a :: (b :: A'') ++ [y]) = _
      show a :: drop_last_empty ((b :: A'') ++ [y]) = _
      rw [ih]
      rfl

theorem str_data_append (a b : String) : (a ++ b).data = a.data ++ b.data := rfl

theorem prefix_colon2 {z : List Char} (h : [':', ':'].isPrefixOf z = true) :
    ∃ w, z = ':' :: ':' :: w := by
  match z with
  | [] => simp [List.isPrefixOf] at h
  | [c] => simp [List.isPrefixOf] at h
  | c1 :: c2 :: w =>
    simp [List.isPrefixOf] at h
    exact ⟨w, by rw [← h.1, ← h.2]⟩

theorem isPrefixOf_colon2_eq_false {z : List Char}
    (h : ¬ ∃ w, z = ':' :: ':' :: w) : [':', ':'].isPrefixOf z = false := by
  cases hz : [':', ':'].isPrefixOf z
  · rfl
  · exact absurd (prefix_colon2 hz) h

theorem infix_of_colon_free (l : List Char) (h : ∀ c ∈ l, c ≠ ':') :
    list_is_infix_of [':', ':'] l = false := by
  induction l with
  | nil => rfl
  | cons c rest ih =>
    have hc : c ≠ ':' := h c (by simp)
    have hrest : ∀ c ∈ rest, c ≠ ':' := fun c hm => h c (by simp [hm])
    simp only [list_is_infix_of, ih hrest, Bool.or_false]
    apply isPrefixOf_colon2_eq_false
    rintro ⟨w, hw⟩
    exact hc (List.cons_eq_cons.mp hw).1

theorem infix_append_colon_free (l r : List Char) (hr : ∀ c ∈ r, c ≠ ':')
    (hl : list_is_infix_of [':', ':'] l = false) :
    list_is_infix_of [':', ':'] (l ++ r) = false := by
  induction l with
  | nil => exact infix_of_colon_free r hr
  | cons c l' ih =>
    simp only [list_is_infix_of, Bool.or_eq_false_iff] at hl
    simp only [List.cons_append, list_is_infix_of, Bool.or_eq_false_iff]
    refine ⟨?_, ih hl.2⟩
    apply isPrefixOf_colon2_eq_false
    rintro ⟨w, hw⟩
    have hc : c = ':' := (List.cons_eq_cons.mp hw).1
    have htl : l' ++ r = ':' :: w := (List.cons_eq_cons.mp hw).2
    cases l' with
    | nil =>
      cases r with
      | nil => simp at htl
      | cons r0 r' =>
        have hr0 : r0 = ':' := by simpa using congrArg List.head? htl
        exact hr r0 (by simp) hr0
    | cons x l'' =>
      have hx : x = ':' := by simpa using congrArg List.head? htl
      have hpre : [':', ':'].isPrefixOf (c :: x :: l'') = true := by
        rw [hc, hx]; simp [List.isPrefixOf]
      exact absurd hl.1 (by simp [hpre])

theorem infix_append_right (l sub m : List Char) (hm : sub.isPrefixOf m = true)
    (hne : m ≠ []) : list_is_infix_of sub (l ++ m) = true := by
  induction l with
  | nil =>
    cases m with
    | nil => exact absurd rfl hne
    | cons c rest => simp [list_is_infix_of, hm]
  | cons c l' ih =>
    simp [list_is_infix_of, ih]

theorem top_of_no_infix (l : List Char) (h : list_is_infix_of [':', ':'] l = false) :
    top_level_segment l = l := by
  induction l with
  | nil => rfl
  | cons c rest ih =>
    simp only [list_is_infix_of, Bool.or_eq_false_iff] at h
    have hrest := ih h.2
    cases rest with
    | nil =>
      by_cases hc : c = ':'
      · subst hc; rfl
      · simp [top_level_segment, hc]
    | cons c2 rest' =>
      by_cases hcc : c = ':' ∧ c2 = ':'
      · exact absurd h.1 (by simp [List.isPrefixOf, hcc.1, hcc.2])
      · have hstep : top_level_segment (c :: c2 :: rest') = c :: top_level_segment (c2 :: rest') := by
          by_cases hc : c = ':'
          · have hc2 : c2 ≠ ':' := fun h2 => hcc ⟨hc, h2⟩
            subst hc
            simp [top_level_segment, hc2]
          · simp [top_level_segment, hc]
        rw [hstep, hrest]

theorem top_append_of_infix (l w : List Char)
    (h : list_is_infix_of [':', ':'] l = true) :
    top_level_segment (l ++ w) = top_level_segment l := by
  induction l with
  | nil => simp [list_is_infix_of, List.isEmpty] at h
  | cons c rest ih =>
    simp only [list_is_infix_of, Bool.or_eq_true] at h
    rcases h with h | h
    · obtain ⟨w2, hw2⟩ := prefix_colon2 h
      rw [hw2]
      rfl
    · cases rest with
      | nil => simp [list_is_infix_of, List.isEmpty] at h
      | cons c2 rest' =>
        by_cases hcc : c = ':' ∧ c2 = ':'
        · rw [hcc.1, hcc.2]
          rfl
        · have hstep : ∀ z, top_level_segment (c :: c2 :: z) = c :: top_level_segment (c2 :: z) := by
            intro z
            by_cases hc : c = ':'
            · have hc2 : c2 ≠ ':' := fun h2 => hcc ⟨hc, h2⟩
              subst hc
              simp [top_level_segment, hc2]
            · simp [top_level_segment, hc]
          have h1 := hstep (rest' ++ w)
          have h2 := hstep rest'
          show top_level_segment (c :: c2 :: (rest' ++ w)) = _
          rw [h1, h2, ← List.cons_append, ih h]

theorem top_append_colon2 (l w : List Char)
    (hni : list_is_infix_of [':', ':'] l = false)
    (hne : head_is ':' l.reverse = false) :
    top_level_segment (l ++ ':' :: ':' :: w) = l := by
  induction l with
  | nil => rfl
  | cons c rest ih =>
    simp only [list_is_infix_of, Bool.or_eq_false_iff] at hni
    cases rest with
    | nil =>
      have hc : c ≠ ':' := by
        simp only [List.reverse_cons, List.reverse_nil, List.nil_append] at hne
        simp only [head_is] at hne
        simpa using hne
      show top_level_segment (c :: ':' :: ':' :: w) = [c]
      simp [top_level_segment, hc]
    | cons c2 rest' =>
      have hne2 : head_is ':' (c2 :: rest').reverse = false := by
        have hrev : (c :: c2 :: rest').reverse = (c2 :: rest').reverse ++ [c] := by
          simp
        rw [hrev] at hne
        cases hr2 : (c2 :: rest').reverse with
        | nil => exact absurd hr2 (by simp)
        | cons a t =>
          rw [hr2] at hne
          simpa [head_is] using hne
      have htail := ih hni.2 hne2
      by_cases hcc : c = ':' ∧ c2 = ':'
      · exact absurd hni.1 (by simp [List.isPrefixOf, hcc.1, hcc.2])
      · have hstep : ∀ z, top_level_segment (c :: c2 :: z) = c :: top_level_segment (c2 :: z) := by
          intro z
          by_cases hc : c = ':'
          · have hc2 : c2 ≠ ':' := fun h2 => hcc ⟨hc, h2⟩
            subst hc
            simp [top_level_segment, hc2]
          · simp [top_level_segment, hc]
        show top_level_segment (c :: c2 :: (rest' ++ ':' :: ':' :: w)) = c :: c2 :: rest'
        rw [hstep (rest' ++ ':' :: ':' :: w)]
        rw [show c2 :: (rest' ++ ':' :: ':' :: w) = (c2 :: rest') ++ ':' :: ':' :: w from rfl]
        rw [htail]

theorem replace_slashes_concat (xs : List Char) (c : Char) :
    replace_slashes (xs ++ [c]) =
      replace_slashes xs ++ (if c = '/' then [':', ':'] else [c]) := by
  induction xs with
  | nil =>
    by_cases hc : c = '/'
    · subst hc; rfl
    · show replace_slashes [c] = _
      rw [if_neg hc]
      simp [replace_slashes, hc]
  | cons x xs' ih =>
    by_cases hx : x = '/'
    · subst hx
      show replace_slashes ('/' :: (xs' ++ [c])) = _
      simp [replace_slashes, ih]
    · show replace_slashes (x :: (xs' ++ [c])) = _
      have h1 : replace_slashes (x :: (xs' ++ [c])) = x :: replace_slashes (xs' ++ [c]) := by
        simp [replace_slashes, hx]
      have h2 : replace_slashes (x :: xs') = x :: replace_slashes xs' := by
        simp [replace_slashes, hx]
      rw [h1, h2, ih]
      simp

theorem replace_slashes_no_newline (s : List Char) (h : ∀ c ∈ s, c ≠ '\n') :
    ∀ c ∈ replace_slashes s, c ≠ '\n' := by
  induction s with
  | nil => simp [replace_slashes]
  | cons x xs ih =>
    have hx : x ≠ '\n' := h x (by simp)
    have hxs : ∀ c ∈ xs, c ≠ '\n' := fun c hm => h c (by simp [hm])
    by_cases hsl : x = '/'
    · subst hsl
      show ∀ c ∈ ':' :: ':' :: replace_slashes xs, c ≠ '\n'
      intro c hm
      rcases List.mem_cons.mp hm with rfl | hm
      · decide
      · rcases List.mem_cons.mp hm with rfl | hm
        · decide
        · exact ih hxs c hm
    · have : replace_slashes (x :: xs) = x :: replace_slashes xs := by
        simp [replace_slashes, hsl]
      rw [this]
      intro c hm
      rcases List.mem_cons.mp hm with rfl | hm
      · exact hx
      · exact ih hxs c hm

theorem replace_slashes_ending (s : List Char) (hs : head_is ':' s.reverse = false) :
    head_is ':' (replace_slashes s).reverse = false ∨
      list_is_infix_of [':', ':'] (replace_slashes s) = true := by
  rcases List.eq_nil_or_concat s with rfl | ⟨xs, c, rfl⟩
  · exact Or.inl rfl
  · rw [List.concat_eq_append] at hs ⊢
    have hc : c ≠ ':' := by
      rw [List.reverse_concat] at hs
      simpa [head_is] using hs
    rw [replace_slashes_concat]
    by_cases hsl : c = '/'
    · rw [if_pos hsl]
      exact Or.inr (infix_append_right _ _ [':', ':'] (by decide) (by decide))
    · rw [if_neg hsl]
      left
      rw [List.reverse_append]
      simpa [head_is] using hc

theorem string_data_ext {a b : String} (h : a.data = b.data) : a = b := by
  cases a; cases b; exact congrArg String.mk h

theorem use_line_path_concat (X : String) :
    use_line_path ("use " ++ X ++ ";") = some X := by
  have hdata : ("use " ++ X ++ ";").data = "use ".data ++ (X.data ++ [';']) := by
    rw [str_data_append, str_data_append, List.append_assoc]
  have h1 : "use ".data.isPrefixOf ("use " ++ X ++ ";").data = true := by
    rw [hdata]
    exact List.isPrefixOf_iff_prefix.mpr ⟨_, rfl⟩
  have h2 : str_ends_with ("use " ++ X ++ ";") ";" = true := by
    unfold str_ends_with
    rw [hdata]
    have hrev : ("use ".data ++ (X.data ++ [';'])).reverse
        = ';' :: (X.data.reverse ++ "use ".data.reverse) := by
      simp
    rw [hrev]
    simp [List.isPrefixOf]
  unfold use_line_path
  rw [if_pos ⟨h1, h2⟩]
  have h3 : (("use " ++ X ++ ";").data.drop 4).dropLast = X.data := by
    rw [hdata]
    have h4 : ("use ".data ++ (X.data ++ [';'])).drop 4 = X.data ++ [';'] := by
      have hlen : "use ".data.length = 4 := rfl
      rw [← hlen, List.drop_left]
    rw [h4, List.dropLast_concat]
  rw [h3]

theorem violates_concat_eq (crates : List String) (path : String) :
    violates_crate_closure crates ("use " ++ path ++ ";") =
      (str_contains path "::" &&
       (!(String.mk (top_level_segment path.data) = "std" ||
          String.mk (top_level_segment path.data) = "core" ||
          String.mk (top_level_segment path.data) = "alloc") &&
        !(crates.contains (String.mk (top_level_segment path.data))))) := by
  unfold violates_crate_closure
  rw [use_line_path_concat]

theorem violates_of_not_use (crates : List String) (line : String)
    (h : "use ".data.isPrefixOf line.data = false) :
    violates_crate_closure crates line = false := by
  unfold violates_crate_closure use_line_path
  rw [if_neg (by simp [h])]

theorem violates_of_colon_free_path (crates : List String) (path : String)
    (h : ∀ c ∈ path.data, c ≠ ':') :
    violates_crate_closure crates ("use " ++ path ++ ";") = false := by
  rw [violates_concat_eq]
  have hcf : list_is_infix_of ("::" : String).data path.data = false :=
    infix_of_colon_free path.data h
  unfold str_contains
  rw [hcf]
  rfl

theorem crate_name_top_ok (mp : String) :
    (!(String.mk (top_level_segment mp.data) = "std" ||
       String.mk (top_level_segment mp.data) = "core" ||
       String.mk (top_level_segment mp.data) = "alloc") &&
     !((crate_name_of mp).toList.contains (String.mk (top_level_segment mp.data)))) = false := by
  unfold crate_name_of
  by_cases h : String.mk (top_level_segment mp.data) = "std" ∨
      String.mk (top_level_segment mp.data) = "core" ∨
      String.mk (top_level_segment mp.data) = "alloc"
  · have hb : (String.mk (top_level_segment mp.data) = "std" ||
        String.mk (top_level_segment mp.data) = "core" ||
        String.mk (top_level_segment mp.data) = "alloc") = true := by
      rcases h with h | h | h <;> simp [h]
    rw [hb]
    rfl
  · rw [if_neg h]
    have hc : (([String.mk (top_level_segment mp.data)] : List String).contains
        (String.mk (top_level_segment mp.data))) = true := by
      simp
    show (_ && !(([String.mk (top_level_segment mp.data)] : List String).contains
        (String.mk (top_level_segment mp.data)))) = false
    rw [hc]
    simp

theorem top_path_eq (mpd w : List Char)
    (hnc : head_is ':' mpd.reverse = false ∨ list_is_infix_of [':', ':'] mpd = true) :
    top_level_segment (mpd ++ ':' :: ':' :: w) = top_level_segment mpd := by
  by_cases hi : list_is_infix_of [':', ':'] mpd = true
  · exact top_append_of_infix _ _ hi
  · have hne : head_is ':' mpd.reverse = false := by
      rcases hnc with h | h
      · exact h
      · exact absurd h hi
    have hni : list_is_infix_of [':', ':'] mpd = false := by
      cases hx : list_is_infix_of [':', ':'] mpd
      · rfl
      · exact absurd hx hi
    rw [top_append_colon2 mpd w hni hne, top_of_no_infix mpd hni]

theorem rust_lines_single_str (s : String) (hne : s.data ≠ [])
    (hnl : ∀ c ∈ s.data, c ≠ '\n') (hcr : s.data.getLast? ≠ some '\x0d') :
    rust_lines s = [s] := by
  have h := rust_lines_single s.data hne hnl hcr
  cases s
  exact h

theorem concat_line_facts (prefixS : String) (mid : List Char)
    (hp : ∀ c ∈ prefixS.data, c ≠ '\n') (hm : ∀ c ∈ mid, c ≠ '\n') :
    (prefixS.data ++ (mid ++ [';']) ≠ [] ∧
     (∀ c ∈ prefixS.data ++ (mid ++ [';']), c ≠ '\n') ∧
     (prefixS.data ++ (mid ++ [';'])).getLast? ≠ some '\x0d') := by
  refine ⟨by simp, ?_, ?_⟩
  · intro c hc
    rcases List.mem_append.mp hc with hc | hc
    · exact hp c hc
    · rcases List.mem_append.mp hc with hc | hc
      · exact hm c hc
      · simp at hc
        subst hc
        decide
  · rw [← List.append_assoc, List.getLast?_concat]
    decide

theorem data_mk (l : List Char) : (String.mk l).data = l := rfl

theorem wf_name_no_newline {s : String} (h : wf_name s = true) :
    ∀ c ∈ s.data, c ≠ '\n' := by
  intro c hc
  have := List.all_eq_true.mp h c hc
  simp only [Bool.and_eq_true, Bool.not_eq_true'] at this
  simpa using this.1

theorem wf_name_no_colon {s : String} (h : wf_name s = true) :
    ∀ c ∈ s.data, c ≠ ':' := by
  intro c hc
  have := List.all_eq_true.mp h c hc
  simp only [Bool.and_eq_true, Bool.not_eq_true'] at this
  simpa using this.2

theorem src_no_newline {imp : ImportDecl} (h : wf_import imp = true) :
    ∀ c ∈ imp.src.data, c ≠ '\n' := by
  intro c hc
  unfold wf_import at h
  simp only [Bool.and_eq_true] at h
  have := List.all_eq_true.mp h.1.1 c hc
  simpa using this

theorem src_not_colon_end {imp : ImportDecl} (h : wf_import imp = true) :
    head_is ':' imp.src.data.reverse = false := by
  unfold wf_import at h
  simp only [Bool.and_eq_true] at h
  have := h.1.2
  simpa using this

theorem specs_wf {imp : ImportDecl} (h : wf_import imp = true) :
    imp.specifiers.all wf_specifier = true := by
  unfold wf_import at h
  simp only [Bool.and_eq_true] at h
  exact h.2

theorem find_default_wf {specs : List ImportSpecifier} {al : String}
    (h : find_default_alias specs = some al)
    (hwf : specs.all wf_specifier = true) : wf_name al = true := by
  induction specs with
  | nil => simp [find_default_alias] at h
  | cons sp rest ih =>
    have hsp : wf_specifier sp = true := List.all_eq_true.mp hwf sp (by simp)
    have hrest : rest.all wf_specifier = true := by
      rw [List.all_eq_true]
      intro x hx
      exact List.all_eq_true.mp hwf x (by simp [hx])
    cases sp with
    | namedS l => exact ih (by simpa [find_default_alias] using h) hrest
    | defaultS l =>
      simp [find_default_alias] at h
      rw [← h]
      exact hsp
    | namespaceS l => exact ih (by simpa [find_default_alias] using h) hrest

theorem specifier_names_no_newline {specs : List ImportSpecifier}
    (hwf : specs.all wf_specifier = true) :
    ∀ n ∈ specifier_names specs, ∀ c ∈ n.data, c ≠ '\n' := by
  induction specs with
  | nil => simp [specifier_names]
  | cons sp rest ih =>
    have hsp : wf_specifier sp = true := List.all_eq_true.mp hwf sp (by simp)
    have hrest : rest.all wf_specifier = true := by
      rw [List.all_eq_true]
      intro x hx
      exact List.all_eq_true.mp hwf x (by simp [hx])
    intro n hn
    cases sp with
    | namedS l =>
      rcases List.mem_cons.mp hn with rfl | hn
      · exact wf_name_no_newline hsp
      · exact ih hrest n hn
    | defaultS l =>
      rcases List.mem_cons.mp hn with rfl | hn
      · intro c hc; simp at hc
      · exact ih hrest n hn
    | namespaceS l =>
      rcases List.mem_cons.mp hn with rfl | hn
      · intro c hc
        rw [str_data_append] at hc
        rcases List.mem_append.mp hc with hc | hc
        · simp at hc
          rcases hc with rfl | rfl | rfl | rfl | rfl <;> decide
        · exact wf_name_no_newline hsp c hc
      · exact ih hrest n hn

theorem intercalate_go_no_newline (acc : String) (names : List String)
    (hacc : ∀ c ∈ acc.data, c ≠ '\n')
    (h : ∀ n ∈ names, ∀ c ∈ n.data, c ≠ '\n') :
    ∀ c ∈ (String.intercalate.go acc ", " names).data, c ≠ '\n' := by
  induction names generalizing acc with
  | nil => exact hacc
  | cons a as ih =>
    show ∀ c ∈ (String.intercalate.go (acc ++ ", " ++ a) ", " as).data, c ≠ '\n'
    apply ih
    · intro c hc
      rw [str_data_append, str_data_append] at hc
      rcases List.mem_append.mp hc with hc | hc
      · rcases List.mem_append.mp hc with hc | hc
        · exact hacc c hc
        · simp at hc
          rcases hc with rfl | rfl <;> decide
      · exact h a (by simp) c hc
    · intro n hn
      exact h n (by simp [hn])

theorem intercalate_no_newline (names : List String)
    (h : ∀ n ∈ names, ∀ c ∈ n.data, c ≠ '\n') :
    ∀ c ∈ (String.intercalate ", " names).data, c ≠ '\n' := by
  cases names with
  | nil => intro c hc; simp [String.intercalate] at hc
  | cons a as =>
    show ∀ c ∈ (String.intercalate.go a ", " as).data, c ≠ '\n'
    exact intercalate_go_no_newline a as (h a (by simp)) (fun n hn => h n (by simp [hn]))

theorem shim_all_convert {us : List String} {crates : List String}
    (h : (us.all (fun u => (rust_lines u).all
      (fun line => !violates_crate_closure crates line))) = true) :
    ∀ u ∈ us, ∀ line ∈ rust_lines u, violates_crate_closure crates line = false := by
  intro u hu line hl
  have h1 := List.all_eq_true.mp h u hu
  have h2 := List.all_eq_true.mp h1 line hl
  simpa using h2

theorem math_shim_ok : (math_use_statements.all (fun u => (rust_lines u).all
    (fun line => !violates_crate_closure (math_required_crates.map Prod.fst) line))) = true := by
  decide

theorem rand_shim_ok : (rand_use_statements.all (fun u => (rust_lines u).all
    (fun line => !violates_crate_closure (rand_required_crates.map Prod.fst) line))) = true := by
  decide

theorem time_shim_ok : (time_use_statements.all (fun u => (rust_lines u).all
    (fun line => !violates_crate_closure (time_required_crates.map Prod.fst) line))) = true := by
  decide

theorem json_shim_ok : (json_use_statements.all (fun u => (rust_lines u).all
    (fun line => !violates_crate_closure (json_required_crates.map Prod.fst) line))) = true := by
  decide

theorem math_wrapped_prefix_ok :
    ((split_on_newline ("mod __trusty_math \x7b\n".data ++
        ((String.intercalate "\n" math_use_statements).data ++ ['\n', '\x7d']))).all
      (fun l => !violates_crate_closure (math_required_crates.map Prod.fst)
        (String.mk (strip_cr l)))) = true := by
  decide

theorem wrapped_split (idata al : List Char) :
    "mod __trusty_".data ++ ("math".data ++ (" \x7b\n".data ++ (idata ++
      ("\n\x7d\nuse __trusty_".data ++ ("math".data ++ (" as ".data ++ (al ++ ";".data))))))) =
    ("mod __trusty_math \x7b\n".data ++ (idata ++ ['\n', '\x7d'])) ++
      '\n' :: ("use __trusty_math as ".data ++ (al ++ [';'])) := by
  rw [List.append_assoc, List.append_assoc idata]
  rfl

theorem mk_use_trusty_line (al : List Char) :
    String.mk ("use __trusty_math as ".data ++ (al ++ [';'])) =
      "use " ++ (String.mk ("__trusty_math as ".data ++ al)) ++ ";" := by
  apply string_data_ext
  show "use __trusty_math as ".data ++ (al ++ [';']) =
    ("use ".data ++ ("__trusty_math as ".data ++ al)) ++ ";".data
  rw [List.append_assoc, List.append_assoc]
  rfl

theorem use_line_assoc3 (a b c : String) :
    "use " ++ a ++ b ++ c ++ ";" = "use " ++ (a ++ b ++ c) ++ ";" := by
  apply string_data_ext
  simp only [str_data_append, List.append_assoc]

theorem use_line_brace (a b : String) :
    "use " ++ a ++ "::\x7b" ++ b ++ "\x7d;" = "use " ++ (a ++ "::\x7b" ++ b ++ "\x7d") ++ ";" := by
  apply string_data_ext
  simp only [str_data_append, List.append_assoc]
  rfl

theorem use_path_line_ok (crates : List String) (path : String)
    (hnl : ∀ c ∈ path.data, c ≠ '\n')
    (hvio : violates_crate_closure crates ("use " ++ path ++ ";") = false) :
    ∀ line ∈ rust_lines ("use " ++ path ++ ";"), violates_crate_closure crates line = false := by
  have hdata : ("use " ++ path ++ ";").data = "use ".data ++ (path.data ++ [';']) := by
    rw [str_data_append, str_data_append, List.append_assoc]
  have hfacts := concat_line_facts "use " path.data (by decide) hnl
  have hsingle : rust_lines ("use " ++ path ++ ";") = ["use " ++ path ++ ";"] := by
    apply rust_lines_single_str
    · rw [hdata]; exact hfacts.1
    · rw [hdata]; exact hfacts.2.1
    · rw [hdata]; exact hfacts.2.2
  rw [hsingle]
  intro line hl
  rcases List.mem_cons.mp hl with rfl | hl
  · exact hvio
  · exact absurd hl (by simp)

theorem math_wrapped_lines_ok (al : String) (hwfal : wf_name al = true) :
    ∀ line ∈ rust_lines ("mod __trusty_" ++ "math" ++ " \x7b\n" ++
        String.intercalate "\n" math_use_statements ++ "\n\x7d\nuse __trusty_" ++ "math" ++
        " as " ++ al ++ ";"),
      violates_crate_closure (math_required_crates.map Prod.fst) line = false := by
  have hal_nl := wf_name_no_newline hwfal
  have hal_nc := wf_name_no_colon hwfal
  have hLfacts := concat_line_facts "use __trusty_math as " al.data (by decide) hal_nl
  have hdata : ("mod __trusty_" ++ "math" ++ " \x7b\n" ++
      String.intercalate "\n" math_use_statements ++ "\n\x7d\nuse __trusty_" ++ "math" ++
      " as " ++ al ++ ";").data
      = ("mod __trusty_math \x7b\n".data ++
          ((String.intercalate "\n" math_use_statements).data ++ ['\n', '\x7d'])) ++
        '\n' :: ("use __trusty_math as ".data ++ (al.data ++ [';'])) := by
    rw [← wrapped_split]
    simp only [str_data_append, List.append_assoc]
  have hlines : rust_lines ("mod __trusty_" ++ "math" ++ " \x7b\n" ++
      String.intercalate "\n" math_use_statements ++ "\n\x7d\nuse __trusty_" ++ "math" ++
      " as " ++ al ++ ";")
      = ((split_on_newline ("mod __trusty_math \x7b\n".data ++
          ((String.intercalate "\n" math_use_statements).data ++ ['\n', '\x7d']))).map
            (fun l => String.mk (strip_cr l))) ++
        [String.mk (strip_cr ("use __trusty_math as ".data ++ (al.data ++ [';'])))] := by
    unfold rust_lines
    rw [hdata, split_append_newline _ _ hLfacts.2.1, drop_last_empty_append _ _ hLfacts.1]
    simp [List.map_append, List.map_map]
  intro line hl
  rw [hlines] at hl
  rcases List.mem_append.mp hl with hl | hl
  · simp only [List.mem_map] at hl
    obtain ⟨l0, hl0, rfl⟩ := hl
    have := List.all_eq_true.mp math_wrapped_prefix_ok l0 hl0
    simpa using this
  · rcases List.mem_cons.mp hl with rfl | hl
    · rw [strip_cr_of_last_ne _ hLfacts.2.2, mk_use_trusty_line]
      apply violates_of_colon_free_path
      intro c hc
      rw [data_mk] at hc
      rcases List.mem_append.mp hc with hc | hc
      · exact (by decide : ∀ c ∈ "__trusty_math as ".data, c ≠ ':') c hc
      · exact hal_nc c hc
    · exact absurd hl (by simp)

theorem comment_line_ok (crates : List String) (mn : String)
    (hmn : ∀ c ∈ mn.data, c ≠ '\n') :
    ∀ line ∈ rust_lines ("// trusty:" ++ mn ++ " — module not yet implemented"),
      violates_crate_closure crates line = false := by
  have hdata : ("// trusty:" ++ mn ++ " — module not yet implemented").data
      = "// trusty:".data ++ (mn.data ++ " — module not yet implemented".data) := by
    rw [str_data_append, str_data_append, List.append_assoc]
  have hsingle : rust_lines ("// trusty:" ++ mn ++ " — module not yet implemented")
      = ["// trusty:" ++ mn ++ " — module not yet implemented"] := by
    apply rust_lines_single_str
    · rw [hdata]; simp
    · rw [hdata]
      intro c hc
      rcases List.mem_append.mp hc with hc | hc
      · exact (by decide : ∀ c ∈ "// trusty:".data, c ≠ '\n') c hc
      · rcases List.mem_append.mp hc with hc | hc
        · exact hmn c hc
        · exact (by decide : ∀ c ∈ " — module not yet implemented".data, c ≠ '\n') c hc
    · rw [hdata, ← List.append_assoc, List.getLast?_append]
      have hlast : (" — module not yet implemented".data.getLast?).or
          (("// trusty:".data ++ mn.data).getLast?) = some 'd' := rfl
      rw [hlast]
      decide
  rw [hsingle]
  intro line hl
  rcases List.mem_cons.mp hl with rfl | hl
  · apply violates_of_not_use
    rw [hdata]
    rfl
  · exact absurd hl (by simp)

theorem external_alias_line_ok (mp al : String)
    (hmpnl : ∀ c ∈ mp.data, c ≠ '\n') (hwfal : wf_name al = true) :
    ∀ line ∈ rust_lines ("use " ++ mp ++ " as " ++ al ++ ";"),
      violates_crate_closure (crate_name_of mp).toList line = false := by
  rw [use_line_assoc3 mp " as " al]
  apply use_path_line_ok
  · intro c hc
    rw [str_data_append, str_data_append] at hc
    rcases List.mem_append.mp hc with hc | hc
    · rcases List.mem_append.mp hc with hc | hc
      · exact hmpnl c hc
      · exact (by decide : ∀ c ∈ " as ".data, c ≠ '\n') c hc
    · exact wf_name_no_newline hwfal c hc
  · rw [violates_concat_eq]
    have hpd : (mp ++ " as " ++ al).data = mp.data ++ (" as ".data ++ al.data) := by
      rw [str_data_append, str_data_append, List.append_assoc]
    by_cases hi : list_is_infix_of [':', ':'] mp.data = true
    · have htop : top_level_segment (mp ++ " as " ++ al).data = top_level_segment mp.data := by
        rw [hpd]
        exact top_append_of_infix _ _ hi
      rw [htop, crate_name_top_ok mp, Bool.and_false]
    · have hcf : list_is_infix_of [':', ':'] (mp ++ " as " ++ al).data = false := by
        rw [hpd]
        apply infix_append_colon_free
        · intro c hc
          rcases List.mem_append.mp hc with hc | hc
          · exact (by decide : ∀ c ∈ " as ".data, c ≠ ':') c hc
          · exact wf_name_no_colon hwfal c hc
        · cases hx : list_is_infix_of [':', ':'] mp.data
          · rfl
          · exact absurd hx hi
      have hcf2 : list_is_infix_of ("::" : String).data (mp ++ " as " ++ al).data = false := hcf
      unfold str_contains
      rw [hcf2]
      rfl

theorem external_plain0_ok (mp : String) (hmpnl : ∀ c ∈ mp.data, c ≠ '\n') :
    ∀ line ∈ rust_lines ("use " ++ mp ++ ";"),
      violates_crate_closure (crate_name_of mp).toList line = false := by
  apply use_path_line_ok _ _ hmpnl
  rw [violates_concat_eq, crate_name_top_ok mp, Bool.and_false]

theorem external_plain1_ok (mp n : String)
    (hmpnl : ∀ c ∈ mp.data, c ≠ '\n') (hnnl : ∀ c ∈ n.data, c ≠ '\n')
    (hnc : head_is ':' mp.data.reverse = false ∨ list_is_infix_of [':', ':'] mp.data = true) :
    ∀ line ∈ rust_lines ("use " ++ mp ++ "::" ++ n ++ ";"),
      violates_crate_closure (crate_name_of mp).toList line = false := by
  rw [use_line_assoc3 mp "::" n]
  apply use_path_line_ok
  · intro c hc
    rw [str_data_append, str_data_append] at hc
    rcases List.mem_append.mp hc with hc | hc
    · rcases List.mem_append.mp hc with hc | hc
      · exact hmpnl c hc
      · exact (by decide : ∀ c ∈ ("::" : String).data, c ≠ '\n') c hc
    · exact hnnl c hc
  · rw [violates_concat_eq]
    have hpd : (mp ++ "::" ++ n).data = mp.data ++ (':' :: ':' :: n.data) := by
      rw [str_data_append, str_data_append, List.append_assoc]
      rfl
    have htop : top_level_segment (mp ++ "::" ++ n).data = top_level_segment mp.data := by
      rw [hpd]
      exact top_path_eq mp.data n.data hnc
    rw [htop, crate_name_top_ok mp, Bool.and_false]

theorem external_plain2_ok (mp inter : String)
    (hmpnl : ∀ c ∈ mp.data, c ≠ '\n') (hinternl : ∀ c ∈ inter.data, c ≠ '\n')
    (hnc : head_is ':' mp.data.reverse = false ∨ list_is_infix_of [':', ':'] mp.data = true) :
    ∀ line ∈ rust_lines ("use " ++ mp ++ "::\x7b" ++ inter ++ "\x7d;"),
      violates_crate_closure (crate_name_of mp).toList line = false := by
  rw [use_line_brace]
  apply use_path_line_ok
  · intro c hc
    rw [str_data_append, str_data_append, str_data_append] at hc
    rcases List.mem_append.mp hc with hc | hc
    · rcases List.mem_append.mp hc with hc | hc
      · rcases List.mem_append.mp hc with hc | hc
        · exact hmpnl c hc
        · exact (by decide : ∀ c ∈ "::\x7b".data, c ≠ '\n') c hc
      · exact hinternl c hc
    · exact (by decide : ∀ c ∈ "\x7d".data, c ≠ '\n') c hc
  · rw [violates_concat_eq]
    have hpd : (mp ++ "::\x7b" ++ inter ++ "\x7d").data
        = mp.data ++ (':' :: ':' :: ('\x7b' :: (inter.data ++ "\x7d".data))) := by
      rw [str_data_append, str_data_append, str_data_append,
        List.append_assoc, List.append_assoc]
      rfl
    have htop : top_level_segment (mp ++ "::\x7b" ++ inter ++ "\x7d").data
        = top_level_segment mp.data := by
      rw [hpd]
      exact top_path_eq mp.data _ hnc
    rw [htop, crate_name_top_ok mp, Bool.and_false]

theorem import_lines_ok (imp : ImportDecl) (info : ImportInfo)
    (hwf : wf_import imp = true)
    (hok : transpile_import imp = Except.ok info) :
    ∀ u ∈ info.use_statements, ∀ line ∈ rust_lines u,
      violates_crate_closure info.required_crates line = false := by
  unfold transpile_import at hok
  cases hsp : str_strip_prefix imp.src "trusty:" with
  | some module_name =>
    rw [hsp] at hok
    dsimp only at hok
    by_cases hmix : (find_default_alias imp.specifiers).isSome = true ∧
        has_non_default_specifier imp.specifiers = true
    · rw [if_pos hmix] at hok
      exact absurd hok (by simp)
    · rw [if_neg hmix] at hok
      cases hres : stdlib_resolve module_name with
      | some stdlib_mod =>
        rw [hres] at hok
        dsimp only at hok
        cases hda : find_default_alias imp.specifiers with
        | some al =>
          rw [hda] at hok
          dsimp only at hok
          by_cases hmn : module_name = "math"
          · rw [if_neg (by simp [hmn])] at hok
            subst hmn
            have hsm : stdlib_mod = ⟨math_use_statements, math_required_crates⟩ := by
              have h0 : stdlib_resolve "math"
                  = some ⟨math_use_statements, math_required_crates⟩ := rfl
              rw [h0] at hres
              exact (Option.some.inj hres).symm
            subst hsm
            have hinfo := Except.ok.inj hok
            rw [← hinfo]
            intro u hu
            rcases List.mem_cons.mp hu with rfl | hu
            · exact math_wrapped_lines_ok al (find_default_wf hda (specs_wf hwf))
            · exact absurd hu (by simp)
          · rw [if_pos hmn] at hok
            exact absurd hok (by simp)
        | none =>
          rw [hda] at hok
          dsimp only at hok
          have hinfo := Except.ok.inj hok
          rw [← hinfo]
          unfold stdlib_resolve at hres
          split at hres
          · rw [← Option.some.inj hres]
            exact shim_all_convert math_shim_ok
          · split at hres
            · rw [← Option.some.inj hres]
              exact shim_all_convert rand_shim_ok
            · split at hres
              · rw [← Option.some.inj hres]
                exact shim_all_convert time_shim_ok
              · split at hres
                · rw [← Option.some.inj hres]
                  exact shim_all_convert json_shim_ok
                · exact absurd hres (by simp)
      | none =>
        rw [hres] at hok
        dsimp only at hok
        have hinfo := Except.ok.inj hok
        rw [← hinfo]
        intro u hu
        rcases List.mem_cons.mp hu with rfl | hu
        · have hmn : module_name = String.mk (imp.src.data.drop "trusty:".data.length) := by
            unfold str_strip_prefix at hsp
            split at hsp
            · exact (Option.some.inj hsp).symm
            · exact absurd hsp (by simp)
          subst hmn
          apply comment_line_ok
          intro c hc
          rw [data_mk] at hc
          exact src_no_newline hwf c (List.mem_of_mem_drop hc)
        · exact absurd hu (by simp)
  | none =>
    rw [hsp] at hok
    dsimp only at hok
    by_cases hdot : str_starts_with imp.src "." = true
    · rw [if_pos hdot] at hok
      by_cases hda : (find_default_alias imp.specifiers).isSome = true
      · rw [if_pos hda] at hok
        exact absurd hok (by simp)
      · rw [if_neg hda] at hok
        have hinfo := Except.ok.inj hok
        rw [← hinfo]
        intro u hu
        exact absurd hu (by simp)
    · rw [if_neg hdot] at hok
      have hmpnl : ∀ c ∈ (String.mk (replace_slashes imp.src.data)).data, c ≠ '\n' := by
        rw [data_mk]
        exact replace_slashes_no_newline _ (src_no_newline hwf)
      have hnc : head_is ':' (String.mk (replace_slashes imp.src.data)).data.reverse = false ∨
          list_is_infix_of [':', ':'] (String.mk (replace_slashes imp.src.data)).data = true := by
        rw [data_mk]
        exact replace_slashes_ending _ (src_not_colon_end hwf)
      cases hda : find_default_alias imp.specifiers with
      | some al =>
        rw [hda] at hok
        dsimp only at hok
        by_cases hnd : has_non_default_specifier imp.specifiers = true
        · rw [if_pos hnd] at hok
          exact absurd hok (by simp)
        · rw [if_neg hnd] at hok
          have hinfo := Except.ok.inj hok
          rw [← hinfo]
          intro u hu
          rcases List.mem_cons.mp hu with rfl | hu
          · exact external_alias_line_ok _ al hmpnl (find_default_wf hda (specs_wf hwf))
          · exact absurd hu (by simp)
      | none =>
        rw [hda] at hok
        dsimp only at hok
        cases hnm : specifier_names imp.specifiers with
        | nil =>
          rw [hnm] at hok
          dsimp only at hok
          have hinfo := Except.ok.inj hok
          rw [← hinfo]
          intro u hu
          rcases List.mem_cons.mp hu with rfl | hu
          · exact external_plain0_ok _ hmpnl
          · exact absurd hu (by simp)
        | cons n rest =>
          cases rest with
          | nil =>
            rw [hnm] at hok
            dsimp only at hok
            have hinfo := Except.ok.inj hok
            rw [← hinfo]
            intro u hu
            rcases List.mem_cons.mp hu with rfl | hu
            · exact external_plain1_ok _ n hmpnl
                (specifier_names_no_newline (specs_wf hwf) n (by rw [hnm]; simp)) hnc
            · exact absurd hu (by simp)
          | cons n2 rest2 =>
            rw [hnm] at hok
            dsimp only at hok
            have hinfo := Except.ok.inj hok
            rw [← hinfo]
            intro u hu
            rcases List.mem_cons.mp hu with rfl | hu
            · exact external_plain2_ok _ _ hmpnl
                (intercalate_no_newline _ (fun m hm =>
                  specifier_names_no_newline (specs_wf hwf) m (by rw [hnm]; exact hm))) hnc
            · exact absurd hu (by simp)

theorem walk_uses_ok (items : List ModuleItem) :
    ∀ (st st' : WalkState),
      items.all wf_module_item = true →
      (∀ u ∈ st.use_statements, ∀ line ∈ rust_lines u,
        violates_crate_closure st.required_crates line = false) →
      walk_items items st = Except.ok st' →
      ∀ u ∈ st'.use_statements, ∀ line ∈ rust_lines u,
        violates_crate_closure st'.required_crates line = false := by
  induction items with
  | nil =>
    intro st st' _ hinv hok
    have hst : st = st' := Except.ok.inj hok
    rw [← hst]
    exact hinv
  | cons item rest ih =>
    intro st st' hwf hinv hok
    have hwitem : wf_module_item item = true := List.all_eq_true.mp hwf item (by simp)
    have hwrest : rest.all wf_module_item = true := by
      rw [List.all_eq_true]
      intro x hx
      exact List.all_eq_true.mp hwf x (by simp [hx])
    simp only [walk_items] at hok
    cases hstep : walk_item st item with
    | error e =>
      rw [hstep] at hok
      exact absurd hok (by simp)
    | ok st1 =>
      rw [hstep] at hok
      apply ih st1 st' hwrest ?_ hok
      cases item with
      | importD imp =>
        unfold walk_item at hstep
        dsimp only at hstep
        cases htr : transpile_import imp with
        | error e =>
          rw [htr] at hstep
          exact absurd hstep (by simp)
        | ok inf =>
          rw [htr] at hstep
          dsimp only at hstep
          have hst1 := Except.ok.inj hstep
          rw [← hst1]
          intro u hu line hl
          rcases mem_dedup_fold _ _ _ hu with hu | hu
          · exact violates_mono _ _ _ (fun t ht => dedup_fold_mem_mono _ _ _ ht)
              (hinv u hu line hl)
          · exact violates_mono _ _ _ (fun t ht => dedup_fold_mem_of_mem _ _ _ ht)
              (import_lines_ok imp inf hwitem htr u hu line hl)
      | fnD f =>
        unfold walk_item at hstep
        have hst1 := Except.ok.inj hstep
        rw [← hst1]
        exact hinv
      | otherItem =>
        unfold walk_item at hstep
        have hst1 := Except.ok.inj hstep
        rw [← hst1]
        exact hinv

theorem mem_insert_at1_iff {x y : String} {l : List String} :
    y ∈ insert_at1 x l ↔ y = x ∨ y ∈ l := by
  cases l with
  | nil => simp [insert_at1]
  | cons a t =>
    simp [insert_at1, List.mem_cons]
    tauto

theorem mem_ite {α : Type} {u : α} {l1 l2 : List α} {c : Prop} [Decidable c]
    (h : u ∈ if c then l1 else l2) : u ∈ l1 ∨ u ∈ l2 := by
  split at h
  · exact Or.inl h
  · exact Or.inr h

set_option maxHeartbeats 2000000 in
theorem auto_inject_mem (U : List String) (ac : String) (u : String)
    (h : u ∈ auto_inject U ac) :
    u ∈ U ∨ u ∈ (["use std::rc::Rc;", "use std::cell::RefCell;",
      "use std::sync::\x7bArc, Mutex\x7d;", "use std::collections::HashMap;",
      "use std::collections::HashSet;"] : List String) := by
  unfold auto_inject at h
  dsimp only at h
  repeat'
    first
    | (rcases mem_ite h with h | h)
    | (rcases mem_insert_at1_iff.mp h with rfl | h)
    | (rcases List.mem_cons.mp h with rfl | h)
  all_goals
    first
    | exact Or.inl h
    | simp

theorem std_single_ok (crates : List String) (s : String)
    (hs : rust_lines s = [s])
    (hv : violates_crate_closure crates s = false) :
    ∀ line ∈ rust_lines s, violates_crate_closure crates line = false := by
  rw [hs]
  intro line hl
  rcases List.mem_cons.mp hl with rfl | hl
  · exact hv
  · exact absurd hl (by simp)

theorem std_lines_ok (crates : List String) (u : String)
    (hu : u ∈ (["use std::rc::Rc;", "use std::cell::RefCell;",
      "use std::sync::\x7bArc, Mutex\x7d;", "use std::collections::HashMap;",
      "use std::collections::HashSet;"] : List String)) :
    ∀ line ∈ rust_lines u, violates_crate_closure crates line = false := by
  simp only [List.mem_cons, List.not_mem_nil, or_false] at hu
  rcases hu with rfl | rfl | rfl | rfl | rfl <;>
    exact std_single_ok crates _ rfl rfl

/-- **C9 (amended).** Restricted to the use-statement section the closure does
hold: for a module whose imports are well-formed (no newline in the import
source, the source does not end in a lone colon, and all specifier names are
identifier-like), every line of every collected or auto-injected use statement
that has the form `use <path>;` with `::` in its path has its top segment in
`std`/`core`/`alloc` or in the walker state's `required_crates`. -/
theorem crate_closure_use_section (module : List ModuleItem) (st : WalkState)
    (hwf : module.all wf_module_item = true)
    (hok : walk_items module WalkState.initial = Except.ok st) (all_code : String) :
    ∀ u ∈ auto_inject st.use_statements all_code, ∀ line ∈ rust_lines u,
      violates_crate_closure st.required_crates line = false := by
  intro u hu line hl
  rcases auto_inject_mem _ _ _ hu with hu | hu
  · exact walk_uses_ok module WalkState.initial st hwf
      (by intro u hu; cases hu) hok u hu line hl
  · exact std_lines_ok _ u hu line hl

theorem crate_closure_use_section_witness :
    (([ModuleItem.importD ⟨"rand/thread_rng", []⟩] : List ModuleItem).all wf_module_item = true) ∧
    violates_crate_closure
      (WalkState.mk ["use rand::thread_rng;"] [] ["rand"] []).required_crates
      "use rand::thread_rng;" = false := by
  refine ⟨by decide, ?_⟩
  have h := crate_closure_use_section [ModuleItem.importD ⟨"rand/thread_rng", []⟩]
    ⟨["use rand::thread_rng;"], [], ["rand"], []⟩ (by decide) (by rfl) ""
  exact h "use rand::thread_rng;" (by decide) "use rand::thread_rng;" (by decide)

end TrustyClaims
